import Mathlib

/-!
Verification of the inbound message processing core of the
chatbot-leads-startfranchise repository, as a shallow embedding in Lean 4.

The definitions in this file are translated from the TypeScript sources:
  * `src/types/lead.ts` (data model),
  * `src/modules/lead/lead.state.ts` (state machine),
  * `src/modules/lead/lead.validator.ts` (form parser and validator),
  * `src/modules/lead/lead.service.ts` (lead store operations),
  * `src/utils/normalize-user.ts` (identifier normalization),
  * `src/modules/message/message.parser.ts` (webhook parser),
  * `src/modules/message/idempotency.ts`, `src/infra/redis.ts`,
    `src/infra/queue.ts` (dedup, cooldown, lock, job queues),
  * `src/modules/message/message.handler.ts` (handler pipeline),
  * `src/modules/admin/admin.controller.ts` (admin state change).

Machine-level effects are modelled explicitly: the Postgres state is a pure
`Db` value, the Redis state (dedup keys, cooldown keys, BullMQ queues) is
kept separately because Redis writes are not part of the Postgres
transaction, and external conditions of one handler invocation (lock
availability, commit success, dedup-store availability) are an `Env` record.
-/

namespace Chatbot

/-- Lead states, from `LeadStates` in `src/types/lead.ts`. -/
inductive LeadState where
  | NEW
  | EXISTING
  | CHOOSE_OPTION
  | FORM_SENT
  | FORM_IN_PROGRESS
  | FORM_COMPLETED
  | MANUAL_INTERVENTION
  | PARTNERSHIP
deriving DecidableEq, Repr, BEq

/-- String name of a state (the value of the `LeadStates` constant). -/
def stateName : LeadState → String
  | .NEW => "NEW"
  | .EXISTING => "EXISTING"
  | .CHOOSE_OPTION => "CHOOSE_OPTION"
  | .FORM_SENT => "FORM_SENT"
  | .FORM_IN_PROGRESS => "FORM_IN_PROGRESS"
  | .FORM_COMPLETED => "FORM_COMPLETED"
  | .MANUAL_INTERVENTION => "MANUAL_INTERVENTION"
  | .PARTNERSHIP => "PARTNERSHIP"

/-- Message source, from `MessageSources` in `src/types/lead.ts`. -/
inductive MessageSource where
  | whatsapp
  | telegram
deriving DecidableEq, Repr, BEq

/-- String key of a message source. -/
def sourceKey : MessageSource → String
  | .whatsapp => "whatsapp"
  | .telegram => "telegram"

/-- Interaction direction, from `MessageDirections` in `src/types/lead.ts`. -/
inductive MessageDirection where
  | dirIn
  | dirOut
deriving DecidableEq, Repr, BEq

/-- The `validTransitions` record of `src/modules/lead/lead.state.ts`. -/
def validTransitions : LeadState → List LeadState
  | .NEW => [.CHOOSE_OPTION, .MANUAL_INTERVENTION]
  | .EXISTING => []
  | .CHOOSE_OPTION => [.FORM_SENT, .PARTNERSHIP, .MANUAL_INTERVENTION]
  | .FORM_SENT => [.FORM_IN_PROGRESS, .MANUAL_INTERVENTION]
  | .FORM_IN_PROGRESS => [.FORM_COMPLETED, .FORM_SENT, .MANUAL_INTERVENTION]
  | .FORM_COMPLETED => [.MANUAL_INTERVENTION, .PARTNERSHIP]
  | .MANUAL_INTERVENTION => [.NEW, .CHOOSE_OPTION, .FORM_SENT, .PARTNERSHIP]
  | .PARTNERSHIP => [.MANUAL_INTERVENTION]

/-- `isValidTransition` of `src/modules/lead/lead.state.ts`. -/
def isValidTransition (fromS toS : LeadState) : Bool :=
  (validTransitions fromS).contains toS

/-- `StateTransitionResult` of `src/types/lead.ts`. -/
structure StateTransitionResult where
  success : Bool
  previousState : LeadState
  newState : LeadState
  error : Option String
deriving DecidableEq, Repr

/-- `attemptTransition` of `src/modules/lead/lead.state.ts`. -/
def attemptTransition (currentState targetState : LeadState) : StateTransitionResult :=
  if isValidTransition currentState targetState then
    { success := true
      previousState := currentState
      newState := targetState
      error := none }
  else
    { success := false
      previousState := currentState
      newState := currentState
      error := some ("Invalid transition from " ++ stateName currentState ++
        " to " ++ stateName targetState) }

/-- `shouldBotReply` of `src/modules/lead/lead.state.ts`. -/
def shouldBotReply (state : LeadState) : Bool :=
  !([LeadState.EXISTING, LeadState.MANUAL_INTERVENTION,
     LeadState.FORM_COMPLETED, LeadState.PARTNERSHIP].contains state)

/-! ## Character-list utilities

JavaScript string primitives (`trim`, `toLowerCase`, `includes`,
`startsWith`) modelled on `List Char`.  Inputs handled by the bot are
ASCII-oriented; lowercasing uses `Char.toLower` which agrees with
JavaScript `toLowerCase` on ASCII. -/

/-- Whitespace recognised by JavaScript `String.prototype.trim`
(ASCII subset). -/
def jsSpace (c : Char) : Bool :=
  c == ' ' || c == '\t' || c == '\n' || c == '\r' || c == '\x0b' || c == '\x0c'

/-- JavaScript `trim` on a character list. -/
def trimL (l : List Char) : List Char :=
  ((l.dropWhile jsSpace).reverse.dropWhile jsSpace).reverse

/-- Lowercase every character (JavaScript `toLowerCase` on ASCII). -/
def lcList (l : List Char) : List Char :=
  l.map Char.toLower

/-- Exact prefix test (`String.prototype.startsWith`). -/
def startsWithL : List Char → List Char → Bool
  | [], _ => true
  | _ :: _, [] => false
  | p :: ps, c :: cs => p == c && startsWithL ps cs

/-- Substring test (`String.prototype.includes`). -/
def containsSub (needle : List Char) : List Char → Bool
  | [] => needle.isEmpty
  | c :: cs => startsWithL needle (c :: cs) || containsSub needle cs

/-- Case-insensitive prefix match; on success returns the remaining input. -/
def matchCI : List Char → List Char → Option (List Char)
  | [], rest => some rest
  | _ :: _, [] => none
  | p :: ps, c :: cs =>
    if p.toLower == c.toLower then matchCI ps cs else none

/-! ## Form parser and validator, from `src/modules/lead/lead.validator.ts`

Each field pattern of `FIELD_PATTERNS` has the shape
`/(?:L1|L2|…)[^:\n]*:[ \t]*(.*)$/im`: scanning the message left to right,
at the first position where one of the labels matches case-insensitively
and a colon follows on the same line, the rest of that line (after the
colon and any spaces or tabs) is captured. -/

/-- After a label matched, consume `[^:\n]*`, require `:`, then skip
`[ \t]*` and capture `(.*)` (up to the end of the line). -/
def afterLabel : List Char → Option (List Char)
  | [] => none
  | c :: cs =>
    if c == ':' then
      some ((cs.dropWhile (fun d => d == ' ' || d == '\t')).takeWhile (· != '\n'))
    else if c == '\n' then none
    else afterLabel cs

/-- Try each label of the alternation, in order, at the current position. -/
def tryLabelsAt (labels : List (List Char)) (s : List Char) : Option (List Char) :=
  labels.findSome? (fun lab => (matchCI lab s).bind afterLabel)

/-- Scan the whole message left to right for the first position where a
field pattern matches; returns the raw capture group. -/
def scanField (labels : List (List Char)) : List Char → Option (List Char)
  | [] => none
  | c :: cs =>
    match tryLabelsAt labels (c :: cs) with
    | some v => some v
    | none => scanField labels cs

/-- A field hit of the pattern pass: the capture, trimmed, if non-empty
(`if (match?.[1]) { const value = match[1].trim(); if (value) … }`). -/
def fieldFromPattern (labels : List (List Char)) (msg : List Char) : Option (List Char) :=
  match scanField labels msg with
  | some raw =>
    let v := trimL raw
    if v.isEmpty then none else some v
  | none => none

/-- Label alternation for `biodata` in `FIELD_PATTERNS`. -/
def biodataLabels : List (List Char) :=
  ["nama".data, "biodata".data, "domisili".data]

/-- Label alternation for `sourceInfo` in `FIELD_PATTERNS`. -/
def sourceInfoLabels : List (List Char) :=
  ["sumber".data, "source".data, "dari".data, "info".data]

/-- Label alternation for `businessType` in `FIELD_PATTERNS`. -/
def businessTypeLabels : List (List Char) :=
  ["jenis bisnis".data, "business type".data, "tipe bisnis".data,
   "type of business".data, "bisnis".data]

/-- Label alternation for `budget` in `FIELD_PATTERNS`. -/
def budgetLabels : List (List Char) :=
  ["budget".data, "anggaran".data, "modal".data, "dana".data]

/-- Label alternation for `startPlan` in `FIELD_PATTERNS`. -/
def startPlanLabels : List (List Char) :=
  ["kapan".data, "when".data, "mulai".data, "start".data,
   "timeline".data, "rencana".data]

/-- `FIELD_KEYWORDS.sourceInfo`. -/
def sourceInfoKeywords : List (List Char) :=
  ["instagram".data, "facebook".data, "google".data, "tiktok".data,
   "youtube".data, "referral".data, "teman".data, "iklan".data,
   "ads".data, "website".data, "event".data]

/-- `FIELD_KEYWORDS.businessType`. -/
def businessTypeKeywords : List (List Char) :=
  ["fnb".data, "f&b".data, "retail".data, "service".data, "jasa".data,
   "makanan".data, "minuman".data, "food".data, "beverage".data,
   "fashion".data, "kuliner".data]

/-- `FIELD_KEYWORDS.budget`. -/
def budgetKeywords : List (List Char) :=
  ["juta".data, "million".data, "rp".data, "idr".data, "rb".data,
   "ribu".data, "thousand".data, "jt".data, "milyar".data, "billion".data]

/-- `FIELD_KEYWORDS.startPlan`. -/
def startPlanKeywords : List (List Char) :=
  ["bulan".data, "month".data, "minggu".data, "week".data, "tahun".data,
   "year".data, "segera".data, "asap".data, "immediately".data,
   "q1".data, "q2".data, "q3".data, "q4".data]

/-- A JavaScript object field: absent, present with `undefined`/`null`
value, or present with a string value. -/
inductive JsField where
  | absent
  | undef
  | val (s : String)
deriving DecidableEq, Repr

/-- JavaScript truthiness of a field value (`!mergedData[field]` is the
negation). -/
def JsField.truthy : JsField → Bool
  | .val s => !s.isEmpty
  | _ => false

/-- Object-spread merge (`{ ...existing, ...formData }`) per field: a
present key of the second object overrides, an absent one does not. -/
def JsField.spread (existing formData : JsField) : JsField :=
  match formData with
  | .absent => existing
  | f => f

/-- A partial `LeadFormData` object (`Partial<LeadFormData>` in the
TypeScript source): the five string fields plus `completed`. -/
structure ParsedForm where
  biodata : JsField := .absent
  source_info : JsField := .absent
  business_type : JsField := .absent
  budget : JsField := .absent
  start_plan : JsField := .absent
  completed : Option Bool := none
deriving DecidableEq, Repr

/-- Sentence split of `extractSentenceWithKeyword`: split on `.`, `!`,
`?`, `\n` (JavaScript `split(/[.!?\n]/)`). -/
def splitSentences : List Char → List Char → List (List Char)
  | [], acc => [acc.reverse]
  | c :: cs, acc =>
    if c == '.' || c == '!' || c == '?' || c == '\n' then
      acc.reverse :: splitSentences cs []
    else
      splitSentences cs (c :: acc)

/-- `extractSentenceWithKeyword` of `src/modules/lead/lead.validator.ts`. -/
def extractSentenceWithKeyword (text kw : List Char) : List Char :=
  match (splitSentences text []).find? (fun s => containsSub (lcList kw) (lcList s)) with
  | some s => trimL s
  | none => kw

/-! Budget extraction.  `extractBudget` tries three regular expressions in
order; each matcher below returns the length of the match starting at the
given position, composing the greedy pieces of the pattern.  Greediness is
deterministic here: every piece consumes a character class disjoint from
what the following piece needs, except the optional `(?:rp\.?\s*)?` prefix,
for which both the fully-consumed and the empty alternative are tried. -/

/-- Length of a greedy run of characters satisfying `p`. -/
def runLen (p : Char → Bool) (l : List Char) : Nat :=
  (l.takeWhile p).length

/-- `\d+` (at least one digit, greedy); `none` if no digit. -/
def digitsLen (l : List Char) : Option Nat :=
  let n := runLen (·.isDigit) l
  if n == 0 then none else some n

/-- `(?:[.,]\d+)*` (greedy). -/
def decTailLen : List Char → Nat
  | c :: cs =>
    if c == '.' || c == ',' then
      match digitsLen cs with
      | some n =>
        let rest := cs.drop n
        1 + n + decTailLen rest
      | none => 0
    else 0
  | [] => 0
termination_by l => l.length
decreasing_by
  simp only [List.length_drop, List.length_cons]
  omega

/-- Case-insensitive literal alternation; returns the length of the first
alternative that matches at the current position. -/
def altLen (alts : List (List Char)) (l : List Char) : Option Nat :=
  alts.findSome? (fun a => if (matchCI a l).isSome then some a.length else none)

/-- `(?:rp\.?\s*)` — the `Rp` prefix with optional dot and spaces. -/
def rpLen (l : List Char) : Option Nat :=
  match matchCI "rp".data l with
  | some rest =>
    let dot := if rest.headD ' ' == '.' then 1 else 0
    let sp := runLen jsSpace (rest.drop dot)
    some (2 + dot + sp)
  | none => none

/-- The numeric core `(\d+(?:[.,]\d+)*)` followed by `\s*` and a suffix
alternation; returns the total length. -/
def numCoreLen (suffixAlts : List (List Char)) (l : List Char) : Option Nat :=
  match digitsLen l with
  | some d =>
    let t := decTailLen (l.drop d)
    let rest := l.drop (d + t)
    let sp := runLen jsSpace rest
    match altLen suffixAlts (rest.drop sp) with
    | some sfx => some (d + t + sp + sfx)
    | none => none
  | none => none

/-- The numeric core with no suffix (third budget pattern). -/
def numPlainLen (l : List Char) : Option Nat :=
  match digitsLen l with
  | some d => some (d + decTailLen (l.drop d))
  | none => none

/-- Match of `/(?:rp\.?\s*)?(\d+(?:[.,]\d+)*)\s*(?:SUFFIXES)/i` at the
current position. -/
def budgetSuffixPatAt (suffixAlts : List (List Char)) (l : List Char) : Option Nat :=
  match rpLen l with
  | some k =>
    match numCoreLen suffixAlts (l.drop k) with
    | some m => some (k + m)
    | none => numCoreLen suffixAlts l
  | none => numCoreLen suffixAlts l

/-- Match of `/(?:rp\.?\s*)(\d+(?:[.,]\d+)*)/i` at the current position. -/
def budgetRpPatAt (l : List Char) : Option Nat :=
  match rpLen l with
  | some k =>
    match numPlainLen (l.drop k) with
    | some m => some (k + m)
    | none => none
  | none => none

/-- First match of a position matcher over the whole text, returning the
matched substring (`text.match(pattern)` and `match[0]`). -/
def firstMatch (patAt : List Char → Option Nat) : List Char → Option (List Char)
  | [] => none
  | c :: cs =>
    match patAt (c :: cs) with
    | some n => some ((c :: cs).take n)
    | none => firstMatch patAt cs

/-- `extractBudget` of `src/modules/lead/lead.validator.ts`: the three
numeric patterns in order; the matched substring, trimmed. -/
def extractBudget (text : List Char) : Option (List Char) :=
  match firstMatch (budgetSuffixPatAt ["juta".data, "jt".data, "million".data, "m".data]) text with
  | some v => some (trimL v)
  | none =>
    match firstMatch (budgetSuffixPatAt ["milyar".data, "miliar".data, "billion".data, "b".data]) text with
    | some v => some (trimL v)
    | none =>
      match firstMatch budgetRpPatAt text with
      | some v => some (trimL v)
      | none => none

/-- Keyword fallback shared by `source_info`, `business_type` and
`start_plan`: the first keyword contained in the lowercased message
selects the sentence containing it. -/
def keywordFallback (keywords : List (List Char)) (message normalized : List Char) : JsField :=
  match keywords.find? (fun kw => containsSub kw normalized) with
  | some kw => .val ⟨extractSentenceWithKeyword message kw⟩
  | none => .absent

/-- Keyword fallback for `budget`: when a budget keyword is present,
`parsed.budget` is assigned the result of `extractBudget`, which may be
`undefined` (a present key with `undefined` value). -/
def budgetFallback (message normalized : List Char) : JsField :=
  match budgetKeywords.find? (fun kw => containsSub kw normalized) with
  | some _ =>
    match extractBudget message with
    | some v => .val ⟨v⟩
    | none => .undef
  | none => .absent

/-- `parseFormData` of `src/modules/lead/lead.validator.ts`: the
line-anchored pattern pass, then keyword fallbacks for fields the pattern
pass left unset. -/
def parseFormData (message : String) : ParsedForm :=
  let m := message.data
  let normalized := lcList m
  let patf := fun labels =>
    match fieldFromPattern labels m with
    | some v => JsField.val ⟨v⟩
    | none => JsField.absent
  let biodata := patf biodataLabels
  let source0 := patf sourceInfoLabels
  let business0 := patf businessTypeLabels
  let budget0 := patf budgetLabels
  let start0 := patf startPlanLabels
  { biodata := biodata
    source_info :=
      if source0.truthy then source0
      else keywordFallback sourceInfoKeywords m normalized
    business_type :=
      if business0.truthy then business0
      else keywordFallback businessTypeKeywords m normalized
    budget :=
      if budget0.truthy then budget0
      else budgetFallback m normalized
    start_plan :=
      if start0.truthy then start0
      else keywordFallback startPlanKeywords m normalized
    completed := none }

/-- `FormValidationResult` of `src/types/lead.ts`. -/
structure FormValidationResult where
  valid : Bool
  parsedData : ParsedForm
  errors : List String
deriving DecidableEq, Repr

/-- Field-wise object-spread merge of two partial form objects. -/
def mergeParsed (existing formData : ParsedForm) : ParsedForm :=
  { biodata := existing.biodata.spread formData.biodata
    source_info := existing.source_info.spread formData.source_info
    business_type := existing.business_type.spread formData.business_type
    budget := existing.budget.spread formData.budget
    start_plan := existing.start_plan.spread formData.start_plan
    completed := (formData.completed).orElse (fun _ => existing.completed) }

/-- `validateFormData` of `src/modules/lead/lead.validator.ts`: merge
existing and parsed data with the parsed data taking precedence, then
check the five required fields, collecting missing ones in order. -/
def validateFormData (formData : ParsedForm) (existingData : Option ParsedForm) :
    FormValidationResult :=
  let merged :=
    match existingData with
    | some e => mergeParsed e formData
    | none => formData
  let errors :=
    (if merged.biodata.truthy then [] else ["biodata"]) ++
    (if merged.source_info.truthy then [] else ["source_info"]) ++
    (if merged.business_type.truthy then [] else ["business_type"]) ++
    (if merged.budget.truthy then [] else ["budget"]) ++
    (if merged.start_plan.truthy then [] else ["start_plan"])
  { valid := errors.isEmpty
    parsedData := merged
    errors := errors }

/-- Checklist line of `getMissingFieldsMessage`. -/
def missingFieldLine (field : String) : String :=
  if field == "biodata" then "- Nama & Domisili"
  else if field == "source_info" then "- Sumber informasi (Instagram/Google/dll)"
  else if field == "business_type" then "- Jenis bisnis (F&B/Retail/Jasa/dll)"
  else if field == "budget" then "- Budget/modal awal"
  else if field == "start_plan" then "- Rencana mulai (bulan/tahun)"
  else "- " ++ field

/-- `getMissingFieldsMessage` of `src/modules/lead/lead.validator.ts`. -/
def getMissingFieldsMessage (errors : List String) : String :=
  if errors.isEmpty then ""
  else
    "Mohon lengkapi data berikut:\n\n" ++
    String.intercalate "\n" (errors.map missingFieldLine) ++
    "\n\nSilakan kirim ulang data yang belum lengkap."

/-! ## Identifier normalization, from `src/utils/normalize-user.ts` -/

/-- `isWhatsAppLid`: the identifier ends with `@lid`. -/
def isWhatsAppLid (rawId : String) : Bool :=
  rawId.data.reverse.take 4 == "@lid".data.reverse

/-- `endsWithL s suffix` — JavaScript `endsWith` on character lists. -/
def endsWithL (l sfx : List Char) : Bool :=
  l.reverse.take sfx.length == sfx.reverse

/-- `normalizeUserId` of `src/utils/normalize-user.ts`: preserve `@lid`
and `@s.whatsapp.net`, convert `@c.us`, append `@s.whatsapp.net` to bare
phone digits of length at least 10; telegram identifiers pass through. -/
def normalizeUserId (rawId : String) (source : MessageSource) : String :=
  match source with
  | .whatsapp =>
    let l := rawId.data
    if endsWithL l "@lid".data then rawId
    else if endsWithL l "@s.whatsapp.net".data then rawId
    else if endsWithL l "@c.us".data then
      ⟨l.take (l.length - "@c.us".length) ++ "@s.whatsapp.net".data⟩
    else if !(l.contains '@') then
      let cleanPhone := l.filter Char.isDigit
      if cleanPhone.length ≥ 10 then ⟨cleanPhone ++ "@s.whatsapp.net".data⟩
      else rawId
    else rawId
  | .telegram => rawId

/-- `isGroupChat` of `src/utils/normalize-user.ts` (whatsapp branch). -/
def isGroupChat (chatId : String) : Bool :=
  endsWithL chatId.data "@g.us".data

/-- `isBroadcastMessage` of `src/utils/normalize-user.ts` (whatsapp
branch). -/
def isBroadcastMessage (chatId : String) : Bool :=
  containsSub "status@broadcast".data chatId.data ||
  containsSub "@broadcast".data chatId.data

/-! ## Webhook parser, from `src/modules/message/message.parser.ts` -/

/-- JavaScript truthiness of an optional string: an absent value and the
empty string are falsy (used to model `a || b` fallthrough chains). -/
def jsTruthyS (o : Option String) : Option String :=
  match o with
  | some s => if s.isEmpty then none else some s
  | none => none

/-- JavaScript `String.prototype.replace` with a string pattern: replace
the first occurrence only. -/
def replaceFirstL (pat rep : List Char) : List Char → List Char
  | [] => []
  | c :: cs =>
    if startsWithL pat (c :: cs) then rep ++ (c :: cs).drop pat.length
    else c :: replaceFirstL pat rep cs

/-- `payload._data.key` of a WAHA webhook. -/
structure WAHAKey where
  remoteJid : Option String := none
  remoteJidAlt : Option String := none
  keyFromMe : Option Bool := none
deriving DecidableEq, Repr

/-- `payload._data` of a WAHA webhook. -/
structure WAHAData where
  key : Option WAHAKey := none
  pushName : Option String := none
deriving DecidableEq, Repr

/-- `payload` of a WAHA webhook (the fields the parser consumes). -/
structure WAHAMsgPayload where
  id : String
  payloadFrom : String
  toId : Option String := none
  body : Option String := none
  fromMe : Bool := false
  isGroup : Option Bool := none
  timestamp : Option Nat := none
  chatId : Option String := none
  extra : Option WAHAData := none
deriving DecidableEq, Repr

/-- A WAHA webhook body (the fields the parser consumes;
`me.pushName` is kept for the push-name fallback). -/
structure WAHAWebhookPayload where
  event : String
  payload : Option WAHAMsgPayload := none
  mePushName : Option String := none
deriving DecidableEq, Repr

/-- Metadata attached to a parsed inbound message. -/
structure MsgMetadata where
  lid : Option String := none
  phone : Option String := none
  pushName : Option String := none
deriving DecidableEq, Repr

/-- `InboundMessage` of `src/types/lead.ts` (without the raw payload). -/
structure InboundMessage where
  source : MessageSource
  messageId : String
  userId : String
  text : String
  fromMe : Bool
  isGroup : Bool
  isBroadcast : Bool
  timestamp : Nat
  metadata : Option MsgMetadata := none
deriving DecidableEq, Repr

/-- The result triple of `extractWAHAUserIds`. -/
structure WAHAUserIds where
  userId : Option String
  lid : Option String
  phone : Option String
deriving DecidableEq, Repr

/-- `extractWAHAUserIds` of `src/modules/message/message.parser.ts`:
prefer a phone-style identifier, fall back to a linked-device (`@lid`)
identifier, finally to `from` as-is. -/
def extractWAHAUserIds (payload : WAHAWebhookPayload) : Option WAHAUserIds :=
  match payload.payload with
  | none => none
  | some mp =>
    let fromId := mp.payloadFrom
    let remoteJid := mp.extra.bind (fun d => d.key.bind (·.remoteJid))
    let remoteJidAlt := mp.extra.bind (fun d => d.key.bind (·.remoteJidAlt))
    let lid :=
      if containsSub "@lid".data fromId.data then some fromId
      else
        match remoteJidAlt with
        | some alt => if containsSub "@lid".data alt.data then some alt else none
        | none => none
    let phone :=
      if containsSub "@s.whatsapp.net".data fromId.data ||
          containsSub "@c.us".data fromId.data then
        some ⟨replaceFirstL "@c.us".data "@s.whatsapp.net".data fromId.data⟩
      else
        match remoteJid with
        | some rj =>
          if containsSub "@s.whatsapp.net".data rj.data then some rj
          else
            match remoteJidAlt with
            | some alt => if containsSub "@s.whatsapp.net".data alt.data then some alt else none
            | none => none
        | none =>
          match remoteJidAlt with
          | some alt => if containsSub "@s.whatsapp.net".data alt.data then some alt else none
          | none => none
    let userId :=
      match phone with
      | some p => some p
      | none =>
        match lid with
        | some l => some l
        | none => some fromId
    match userId with
    | some u => if u.isEmpty then none else some ⟨some u, lid, phone⟩
    | none => none

/-- Whether the webhook marks the message as outgoing
(`fromMe || payload._data?.key?.fromMe`). -/
def wahaIsFromMe (mp : WAHAMsgPayload) : Bool :=
  mp.fromMe || (mp.extra.bind (fun d => d.key.bind (·.keyFromMe))).getD false

/-- The recipient used as user id for an outgoing message
(`payload.to || payload._data?.key?.remoteJid`). -/
def wahaRecipient (mp : WAHAMsgPayload) : Option String :=
  match mp.toId with
  | some t => if t.isEmpty then mp.extra.bind (fun d => d.key.bind (·.remoteJid)) else some t
  | none => mp.extra.bind (fun d => d.key.bind (·.remoteJid))

/-- `parseWAHAMessage` of `src/modules/message/message.parser.ts`. -/
def parseWAHAMessage (payload : WAHAWebhookPayload) : Option InboundMessage :=
  if payload.event != "message" && payload.event != "message.any" then none
  else
    match payload.payload with
    | none => none
    | some mp =>
      let chatId :=
        ((jsTruthyS mp.chatId).orElse
          (fun _ => jsTruthyS (mp.extra.bind (fun d => d.key.bind (·.remoteJid))))).getD
          mp.payloadFrom
      let isGroup := mp.isGroup == some true || endsWithL chatId.data "@g.us".data
      if isGroup || isGroupChat chatId then none
      else if isBroadcastMessage chatId then none
      else
        let userIds :=
          if wahaIsFromMe mp then
            match wahaRecipient mp with
            | some r => some (WAHAUserIds.mk (some r) none none)
            | none => some (WAHAUserIds.mk none none none)
          else extractWAHAUserIds payload
        match userIds with
        | none => none
        | some uids =>
          match uids.userId with
          | none => none
          | some u =>
            if u.isEmpty then none
            else
              some
                { source := .whatsapp
                  messageId := mp.id
                  userId := normalizeUserId u .whatsapp
                  text := (mp.body).getD ""
                  fromMe := false
                  isGroup := false
                  isBroadcast := false
                  timestamp := (mp.timestamp).getD 0
                  metadata := some
                    { lid := uids.lid
                      phone := uids.phone
                      pushName :=
                        match jsTruthyS (mp.extra.bind (·.pushName)) with
                        | some p => some p
                        | none => payload.mePushName } }

/-! ## Persistent data model

`leads`, `lead_interactions` and `lead_form_data` rows, from the schema in
`src/infra/db.ts` and the entity types in `src/types/lead.ts`.  Surrogate
row ids are modelled by a counter `nextId` in `Db`; timestamps are not
modelled. -/

/-- A `leads` row. -/
structure LeadRec where
  id : Nat
  user_id : String
  alt_id : Option String
  push_name : Option String
  source : MessageSource
  state : LeadState
  warning_count : Int
deriving DecidableEq, Repr

/-- A `lead_interactions` row. -/
structure InteractionRec where
  lead_id : Nat
  message_id : String
  message : String
  direction : MessageDirection
deriving DecidableEq, Repr

/-- A `lead_form_data` row.  The columns written by the core's
`upsertFormData` are `source_info`, `business_type`, `budget`,
`start_plan` and `completed`; the `biodata` column exists in the schema
but is never named by that function. -/
structure FormRow where
  lead_id : Nat
  biodata : Option String
  source_info : Option String
  business_type : Option String
  budget : Option String
  start_plan : Option String
  completed : Bool
deriving DecidableEq, Repr

/-- The Postgres state. -/
structure Db where
  leads : List LeadRec
  interactions : List InteractionRec
  forms : List FormRow
  nextId : Nat
deriving DecidableEq, Repr

/-- The empty database. -/
def dbEmpty : Db := ⟨[], [], [], 0⟩

/-! ## Job queues, from `src/infra/queue.ts`

BullMQ queues live in Redis; adding a job is not part of any Postgres
transaction. -/

/-- Payload of a `sheets-sync` job (`SheetsSyncJobData`). -/
structure SheetsSyncJobData where
  leadId : Nat
  userId : String
  source : MessageSource
  formData : ParsedForm
deriving DecidableEq, Repr

/-- `EscalationInfo` of `src/types/lead.ts` (timestamp not modelled). -/
structure EscalationInfo where
  userId : String
  lastMessage : String
  currentState : LeadState
  warningCount : Int
  source : MessageSource
  reason : Option String
deriving DecidableEq, Repr

/-- Payload of a `telegram-notify` job. -/
inductive NotifyData where
  | esc (info : EscalationInfo)
  | form (leadId : Nat) (userId : String) (formData : ParsedForm)
deriving DecidableEq, Repr

/-- A `telegram-notify` job (`TelegramNotifyJobData`). -/
structure TelegramNotifyJobData where
  type : String
  data : NotifyData
deriving DecidableEq, Repr

/-- The two named queues. -/
structure Queues where
  sheets : List SheetsSyncJobData
  notify : List TelegramNotifyJobData
deriving DecidableEq, Repr

/-- Empty queues. -/
def queuesEmpty : Queues := ⟨[], []⟩

/-- `addSheetsSyncJob` of `src/infra/queue.ts`. -/
def addSheetsSyncJob (data : SheetsSyncJobData) (q : Queues) : Queues :=
  { q with sheets := q.sheets ++ [data] }

/-- `addTelegramNotifyJob` of `src/infra/queue.ts`. -/
def addTelegramNotifyJob (data : TelegramNotifyJobData) (q : Queues) : Queues :=
  { q with notify := q.notify ++ [data] }

/-! ## Lead store, from `src/modules/lead/lead.service.ts`

`createLead`, `getOrCreateLead`, `markAsExisting` and `getLeadByUserId`
issue pool-level queries (they commit independently of the handler's outer
transaction); `updateLeadState`, `incrementWarningCount`, `addInteraction`
and `upsertFormData` run on the transaction client. -/

/-- An SQL `UPDATE … WHERE id = $i` over the `leads` rows. -/
def updateById (i : Nat) (f : LeadRec → LeadRec) (leads : List LeadRec) : List LeadRec :=
  leads.map (fun l => if l.id == i then f l else l)

/-- JavaScript `x || null` on an optional string. -/
def jsOrNull (o : Option String) : Option String :=
  match o with
  | some s => if s.isEmpty then none else some s
  | none => none

/-- `isLidFormat` (the identifier contains `@lid`). -/
def isLidFormat (userId : String) : Bool :=
  containsSub "@lid".data userId.data

/-- `getLeadByUserId`: exact match on `user_id`, with an `alt_id` fallback
for `@lid`-format identifiers. -/
def getLeadByUserId (userId : String) (db : Db) : Option LeadRec :=
  match db.leads.find? (fun l => l.user_id == userId) with
  | some l => some l
  | none =>
    if isLidFormat userId then
      db.leads.find? (fun l => l.alt_id == some userId)
    else none

/-- Options of `getOrCreateLead` (`GetLeadOptions`): the push name and the
linked-device id from the message metadata. -/
structure GetLeadOptions where
  pushName : Option String := none
  lid : Option String := none
deriving DecidableEq, Repr

/-- JavaScript truthiness of an optional string value. -/
def truthyOpt (o : Option String) : Bool :=
  match o with
  | some s => !s.isEmpty
  | none => false

/-- `createLead`: insert a new `leads` row with `warning_count = 0`. -/
def createLead (userId : String) (source : MessageSource) (state : LeadState)
    (opts : Option GetLeadOptions) (db : Db) : LeadRec × Db :=
  let lead : LeadRec :=
    { id := db.nextId
      user_id := userId
      alt_id := jsOrNull (opts.bind (·.lid))
      push_name := jsOrNull (opts.bind (·.pushName))
      source := source
      state := state
      warning_count := 0 }
  (lead, { db with leads := db.leads ++ [lead], nextId := db.nextId + 1 })

/-- `shouldUpdateMetadata` helper of `getOrCreateLead`. -/
def shouldUpdateMetadata (lead : LeadRec) (opts : Option GetLeadOptions) : Bool :=
  match opts with
  | none => false
  | some o =>
    (truthyOpt o.pushName && lead.push_name != o.pushName) ||
    (truthyOpt o.lid && !truthyOpt lead.alt_id)

/-- Result of `getOrCreateLead`. -/
structure GotLead where
  lead : LeadRec
  isNew : Bool
  db : Db
deriving Repr

/-- `getOrCreateLead`: find the lead, updating `push_name`/`alt_id` when
the metadata warrants it, or create it in state `NEW`. -/
def getOrCreateLead (userId : String) (source : MessageSource)
    (opts : Option GetLeadOptions) (db : Db) : GotLead :=
  match getLeadByUserId userId db with
  | none =>
    let c := createLead userId source .NEW opts db
    ⟨c.1, true, c.2⟩
  | some lead =>
    if shouldUpdateMetadata lead opts then
      let o := opts.getD {}
      let newPush :=
        if truthyOpt o.pushName && lead.push_name != o.pushName then o.pushName
        else lead.push_name
      let newAlt :=
        if truthyOpt o.lid && !truthyOpt lead.alt_id then o.lid
        else lead.alt_id
      let upd := fun (l : LeadRec) => { l with push_name := newPush, alt_id := newAlt }
      ⟨upd lead, false,
        { db with leads := updateById lead.id upd db.leads }⟩
    else ⟨lead, false, db⟩

/-- `markAsExisting`: flip a `NEW` lead to `EXISTING` (a direct update,
not validated by the state machine), or create the lead as `EXISTING`. -/
def markAsExisting (userId : String) (source : MessageSource) (db : Db) :
    LeadRec × Db :=
  match getLeadByUserId userId db with
  | some lead =>
    if lead.state == .NEW then
      (⟨lead.id, lead.user_id, lead.alt_id, lead.push_name, lead.source,
        .EXISTING, lead.warning_count⟩,
       { db with leads :=
           updateById lead.id (fun l => { l with state := .EXISTING }) db.leads })
    else (lead, db)
  | none => createLead userId source .EXISTING none db

/-- `updateLeadState` (on the transaction client): read the current row,
validate the transition with `attemptTransition`, throw on an invalid one,
otherwise write the new state. -/
def updateLeadStateE (leadId : Nat) (newState : LeadState) (db : Db) :
    Except String (Option LeadRec × Db) :=
  match db.leads.find? (fun l => l.id == leadId) with
  | none => .ok (none, db)
  | some cur =>
    let t := attemptTransition cur.state newState
    if t.success then
      .ok (some { cur with state := newState },
        { db with leads :=
            updateById leadId (fun l => { l with state := newState }) db.leads })
    else .error ((t.error).getD "")

/-- `incrementWarningCount` (on the transaction client): unconditional
`warning_count + 1`; `shouldEscalate` when the new value reaches
`MAX_WARNINGS = 3`. -/
def incrementWarningCount (leadId : Nat) (db : Db) :
    Except String (LeadRec × Bool × Db) :=
  match db.leads.find? (fun l => l.id == leadId) with
  | none => .error ("Lead not found: " ++ toString leadId)
  | some cur =>
    let lead := ⟨cur.id, cur.user_id, cur.alt_id, cur.push_name, cur.source,
      cur.state, cur.warning_count + 1⟩
    .ok (lead, lead.warning_count ≥ 3,
      { db with leads :=
          updateById leadId (fun l => { l with warning_count := l.warning_count + 1 }) db.leads })

/-- `resetWarningCount`: set `warning_count` to 0. -/
def resetWarningCount (leadId : Nat) (db : Db) : Db :=
  { db with leads :=
      updateById leadId (fun l => { l with warning_count := 0 }) db.leads }

/-- `addInteraction` (on the transaction client): append a row to the
`lead_interactions` log. -/
def addInteraction (leadId : Nat) (messageId text : String)
    (direction : MessageDirection) (db : Db) : Db :=
  { db with interactions := db.interactions ++ [⟨leadId, messageId, text, direction⟩] }

/-- `getLeadFormData`: the `lead_form_data` row of a lead, if any. -/
def getLeadFormData (leadId : Nat) (db : Db) : Option FormRow :=
  db.forms.find? (fun f => f.lead_id == leadId)

/-- SQL parameter for a field of the partial data in `upsertFormData`'s
`UPDATE`: an absent or undefined field becomes `NULL` and `COALESCE`
keeps the old value. -/
def jsFieldToSql : JsField → Option String
  | .val s => some s
  | _ => none

/-- SQL parameter for the `INSERT` branch (`data.x || null`). -/
def jsFieldToSqlIns (f : JsField) : Option String :=
  jsOrNull (jsFieldToSql f)

/-- `upsertFormData` of `src/modules/lead/lead.service.ts` applied to one
row.  The `UPDATE` branch coalesces `source_info`, `business_type`,
`budget`, `start_plan` and `completed`; the `INSERT` branch names the same
columns.  Neither names `biodata`. -/
def upsertFormRow (leadId : Nat) (data : ParsedForm) (existing : Option FormRow) :
    FormRow :=
  match existing with
  | some row =>
    { row with
      source_info := (jsFieldToSql data.source_info).orElse (fun _ => row.source_info)
      business_type := (jsFieldToSql data.business_type).orElse (fun _ => row.business_type)
      budget := (jsFieldToSql data.budget).orElse (fun _ => row.budget)
      start_plan := (jsFieldToSql data.start_plan).orElse (fun _ => row.start_plan)
      completed := (data.completed).getD row.completed }
  | none =>
    { lead_id := leadId
      biodata := none
      source_info := jsFieldToSqlIns data.source_info
      business_type := jsFieldToSqlIns data.business_type
      budget := jsFieldToSqlIns data.budget
      start_plan := jsFieldToSqlIns data.start_plan
      completed := (data.completed).getD false }

/-- `upsertFormData` (on the transaction client) as a database update. -/
def upsertFormData (leadId : Nat) (data : ParsedForm) (db : Db) : Db :=
  match getLeadFormData leadId db with
  | some row =>
    { db with forms := db.forms.map (fun f =>
        if f.lead_id == leadId then upsertFormRow leadId data (some row) else f) }
  | none =>
    { db with forms := db.forms ++ [upsertFormRow leadId data none] }

/-- The `lead_form_data` row viewed as the JavaScript object passed to
`validateFormData` as `existingFormData` (a present column with SQL `NULL`
is a present key with value `null`). -/
def rowToPartial (row : FormRow) : ParsedForm :=
  { biodata := match row.biodata with | some s => .val s | none => .undef
    source_info := match row.source_info with | some s => .val s | none => .undef
    business_type := match row.business_type with | some s => .val s | none => .undef
    budget := match row.budget with | some s => .val s | none => .undef
    start_plan := match row.start_plan with | some s => .val s | none => .undef
    completed := some row.completed }

/-! ## Bot messages, from `src/modules/message/message.config.ts`

`getMessage(key)` reads the `bot_messages` table (seeded from
`DEFAULT_MESSAGES`) with the default content as ultimate fallback; the
model uses the default contents (no admin overrides are modelled). -/

/-- Default content of a bot message key (`DEFAULT_MESSAGES[key]?.content
|| ''`). -/
def getMessage (key : String) : String :=
  if key == "WELCOME" then
    "Halo! 👋 Selamat datang di StartFranchise.\n\nKami membantu Anda menemukan peluang franchise terbaik.\n\nSilakan pilih:\n1️⃣ Minat Franchise\n2️⃣ Daftar Sebagai Franchisor\n3️⃣ Keperluan lain / Kerja sama"
  else if key == "CHOOSE_OPTION" then
    "Terima kasih! Agar kami dapat membantu merekomendasikan franchise yang paling tepat untuk Anda, mohon lengkapi info singkat berikut:\n  \n📝 *Info Calon Mitra*\n\nSilakan copy template di bawah ini, isi data Anda, lalu kirim kembali:"
  else if key == "FORM_TEMPLATE" then
    "Nama, Domisili: \nSumber info: \nJenis bisnis: \nBudget: \nRencana mulai: "
  else if key == "FORM_RECEIVED" then
    "✅ Terima kasih! Data Anda sudah kami terima.\n\nTim konsultan kami akan menganalisa kebutuhan Anda dan segera menghubungi Anda untuk memberikan rekomendasi franchise terbaik.\n\nJika ada pertanyaan tambahan, silakan chat langsung di sini."
  else if key == "PARTNERSHIP" then
    "Terima kasih atas minat Anda untuk mendaftarkan bisnis sebagai franchisor!\n\nTim partnership kami akan segera menghubungi Anda untuk diskusi lebih lanjut.\n\nMohon tunggu konfirmasi dari tim kami."
  else if key == "QUESTION_RECEIVED" then
    "Terima kasih! \n\nTim kami akan segera merespons pesan Anda.\n\nMohon tunggu, kami akan membalas secepatnya."
  else if key == "INVALID_OPTION" then
    "Maaf, pilihan tidak valid. Silakan pilih:\n\n1️⃣ Minat Franchise\n2️⃣ Daftar Sebagai Franchisor\n3️⃣ Keperluan lain / Kerja sama"
  else if key == "ESCALATION_NOTICE" then
    "Terima kasih atas kesabaran Anda.\n\nTim customer service kami akan segera menghubungi Anda secara langsung.\n\nMohon tunggu, kami akan membantu Anda secepatnya."
  else if key == "OTHER_NEEDS" then
    "Terima kasih! \n\nTim kami akan segera merespons pesan Anda.\n\nMohon tunggu, kami akan membalas secepatnya."
  else ""

/-! ## Handler pipeline, from `src/modules/message/message.handler.ts`

The handler runs `processMessage` inside one Postgres transaction.  Job
enqueues and idempotency marks go to Redis and are not rolled back with
the transaction.  `getOrCreateLead` and `markAsExisting` issue pool-level
queries, so their writes also survive a rollback of the outer transaction;
every processing path performs them before any client-level write, so
`processMessage` reports the pool-committed database separately. -/

/-- `MessageHandlerResult` of `src/types/lead.ts`. -/
structure MessageHandlerResult where
  success : Bool
  shouldReply : Bool
  replyMessage : Option String := none
  secondaryMessage : Option String := none
  error : Option String := none
deriving DecidableEq, Repr

/-- External conditions of one handler invocation: availability of the
idempotency store, the outcome of `acquireLockWithRetry`, and whether the
outer transaction commits. -/
structure Env where
  redisUp : Bool
  lockAcquired : Bool
  commitOk : Bool
deriving DecidableEq, Repr

/-- The full system state: Postgres, the BullMQ queues, the idempotency
keys (`processed:{source}:{messageId}`) and the cooldown keys. -/
structure Sys where
  db : Db
  q : Queues
  processed : List (String × String)
  cooldown : List String
deriving DecidableEq, Repr

/-- The initial system state. -/
def sysInit : Sys := ⟨dbEmpty, queuesEmpty, [], []⟩

/-- `GetLeadOptions` built from a message's metadata
(`{ metadata: message.metadata, pushName }` in `processMessage`). -/
def optsOfMessage (msg : InboundMessage) : Option GetLeadOptions :=
  some
    { pushName := msg.metadata.bind (·.pushName)
      lid := msg.metadata.bind (·.lid) }

/-- `handleEscalation`: attempt the transition to `MANUAL_INTERVENTION`
(swallowing an invalid-transition error) and enqueue an `escalation`
notification built from the lead row as read at the start of the
transaction. -/
def handleEscalation (lead : LeadRec) (msg : InboundMessage) (reason : String)
    (db : Db) (q : Queues) : Db × Queues :=
  let db1 :=
    match updateLeadStateE lead.id .MANUAL_INTERVENTION db with
    | .ok (_, d) => d
    | .error _ => db
  (db1, addTelegramNotifyJob
    ⟨"escalation",
     .esc ⟨lead.user_id, msg.text, lead.state, lead.warning_count,
       msg.source, some reason⟩⟩ q)

/-- `handleSpecialOption`: attempt the transition to
`MANUAL_INTERVENTION` (swallowing errors) and enqueue a notification of
the given type. -/
def handleSpecialOption (lead : LeadRec) (msg : InboundMessage) (type : String)
    (db : Db) (q : Queues) : Db × Queues :=
  let db1 :=
    match updateLeadStateE lead.id .MANUAL_INTERVENTION db with
    | .ok (_, d) => d
    | .error _ => db
  (db1, addTelegramNotifyJob
    ⟨type,
     .esc ⟨lead.user_id, msg.text, lead.state, lead.warning_count,
       msg.source, none⟩⟩ q)

/-- `handleNewState`: transition to `CHOOSE_OPTION` and emit the welcome
menu. -/
def handleNewState (lead : LeadRec) (db : Db) (q : Queues) :
    Except String (MessageHandlerResult × Db) × Queues :=
  match updateLeadStateE lead.id .CHOOSE_OPTION db with
  | .error e => (.error e, q)
  | .ok (_, db1) =>
    (.ok ({ success := true, shouldReply := true,
            replyMessage := some (getMessage "WELCOME") }, db1), q)

/-- `handleChooseOptionState`: dispatch on the trimmed text (`"1"`,
`"2"`, `"3"`, otherwise a warning with possible escalation). -/
def handleChooseOptionState (lead : LeadRec) (msg : InboundMessage)
    (db : Db) (q : Queues) : Except String (MessageHandlerResult × Db) × Queues :=
  let trimmedText : String := ⟨trimL msg.text.data⟩
  if trimmedText == "1" then
    match updateLeadStateE lead.id .FORM_SENT db with
    | .error e => (.error e, q)
    | .ok (_, db1) =>
      (.ok ({ success := true, shouldReply := true,
              replyMessage := some (getMessage "CHOOSE_OPTION"),
              secondaryMessage := some (getMessage "FORM_TEMPLATE") }, db1), q)
  else if trimmedText == "2" then
    let dq := handleSpecialOption lead msg "partnership_interest" db q
    (.ok ({ success := true, shouldReply := true,
            replyMessage := some (getMessage "PARTNERSHIP") }, dq.1), dq.2)
  else if trimmedText == "3" then
    let dq := handleSpecialOption lead msg "other_needs" db q
    (.ok ({ success := true, shouldReply := true,
            replyMessage := some (getMessage "OTHER_NEEDS") }, dq.1), dq.2)
  else
    match incrementWarningCount lead.id db with
    | .error e => (.error e, q)
    | .ok (_, shouldEscalate, db1) =>
      if shouldEscalate then
        let dq := handleEscalation lead msg "max_warnings" db1 q
        (.ok ({ success := true, shouldReply := true,
                replyMessage := some (getMessage "ESCALATION_NOTICE") }, dq.1), dq.2)
      else
        (.ok ({ success := true, shouldReply := true,
                replyMessage := some (getMessage "INVALID_OPTION") }, db1), q)

/-- `handleFormState`: move `FORM_SENT` to `FORM_IN_PROGRESS`, read the
existing fragment, parse and validate, upsert the parsed data, then
either complete the form (upsert `completed`, transition, enqueue the
spreadsheet-sync job and the `form_completed` notification) or count a
warning. -/
def handleFormState (lead : LeadRec) (msg : InboundMessage)
    (db : Db) (q : Queues) : Except String (MessageHandlerResult × Db) × Queues :=
  let step1 : Except String Db :=
    if lead.state == .FORM_SENT then
      match updateLeadStateE lead.id .FORM_IN_PROGRESS db with
      | .error e => .error e
      | .ok (_, d) => .ok d
    else .ok db
  match step1 with
  | .error e => (.error e, q)
  | .ok db1 =>
    let existingFormData := getLeadFormData lead.id db1
    let parsedData := parseFormData msg.text
    let validation := validateFormData parsedData (existingFormData.map rowToPartial)
    let db2 := upsertFormData lead.id parsedData db1
    if validation.valid then
      let db3 := upsertFormData lead.id { completed := some true } db2
      match updateLeadStateE lead.id .FORM_COMPLETED db3 with
      | .error e => (.error e, q)
      | .ok (_, db4) =>
        let q1 := addSheetsSyncJob
          ⟨lead.id, lead.user_id, msg.source, validation.parsedData⟩ q
        let q2 := addTelegramNotifyJob
          ⟨"form_completed", .form lead.id lead.user_id validation.parsedData⟩ q1
        (.ok ({ success := true, shouldReply := true,
                replyMessage := some (getMessage "FORM_RECEIVED") }, db4), q2)
    else
      match incrementWarningCount lead.id db2 with
      | .error e => (.error e, q)
      | .ok (_, shouldEscalate, db3) =>
        if shouldEscalate then
          let dq := handleEscalation lead msg "max_warnings" db3 q
          (.ok ({ success := true, shouldReply := true,
                  replyMessage := some (getMessage "ESCALATION_NOTICE") }, dq.1), dq.2)
        else
          (.ok ({ success := true, shouldReply := true,
                  replyMessage := some (getMissingFieldsMessage validation.errors) }, db3), q)

/-- The body of `handleFormState` after the `FORM_SENT` to
`FORM_IN_PROGRESS` promotion: read the fragment, parse, validate, upsert
and either complete the form or count a warning. -/
def formContinue (lead : LeadRec) (msg : InboundMessage) (db1 : Db) (q : Queues) :
    Except String (MessageHandlerResult × Db) × Queues :=
  let existingFormData := getLeadFormData lead.id db1
  let parsedData := parseFormData msg.text
  let validation := validateFormData parsedData (existingFormData.map rowToPartial)
  let db2 := upsertFormData lead.id parsedData db1
  if validation.valid then
    let db3 := upsertFormData lead.id { completed := some true } db2
    match updateLeadStateE lead.id .FORM_COMPLETED db3 with
    | .error e => (.error e, q)
    | .ok (_, db4) =>
      let q1 := addSheetsSyncJob
        ⟨lead.id, lead.user_id, msg.source, validation.parsedData⟩ q
      let q2 := addTelegramNotifyJob
        ⟨"form_completed", .form lead.id lead.user_id validation.parsedData⟩ q1
      (.ok ({ success := true, shouldReply := true,
              replyMessage := some (getMessage "FORM_RECEIVED") }, db4), q2)
  else
    match incrementWarningCount lead.id db2 with
    | .error e => (.error e, q)
    | .ok (_, shouldEscalate, db3) =>
      if shouldEscalate then
        let dq := handleEscalation lead msg "max_warnings" db3 q
        (.ok ({ success := true, shouldReply := true,
                replyMessage := some (getMessage "ESCALATION_NOTICE") }, dq.1), dq.2)
      else
        (.ok ({ success := true, shouldReply := true,
                replyMessage := some (getMissingFieldsMessage validation.errors) }, db3), q)

/-- `handleCompletedState`: escalate with reason `post_form_contact` and
emit `QUESTION_RECEIVED`. -/
def handleCompletedState (lead : LeadRec) (msg : InboundMessage)
    (db : Db) (q : Queues) : Except String (MessageHandlerResult × Db) × Queues :=
  let dq := handleEscalation lead msg "post_form_contact" db q
  (.ok ({ success := true, shouldReply := true,
          replyMessage := some (getMessage "QUESTION_RECEIVED") }, dq.1), dq.2)

/-- `handlePartnershipState`: escalate with reason `partnership_followup`
and emit `QUESTION_RECEIVED`. -/
def handlePartnershipState (lead : LeadRec) (msg : InboundMessage)
    (db : Db) (q : Queues) : Except String (MessageHandlerResult × Db) × Queues :=
  let dq := handleEscalation lead msg "partnership_followup" db q
  (.ok ({ success := true, shouldReply := true,
          replyMessage := some (getMessage "QUESTION_RECEIVED") }, dq.1), dq.2)

/-- `handleByState`: dispatch on the lead's state; `EXISTING` and
`MANUAL_INTERVENTION` fall to the no-reply default. -/
def handleByState (lead : LeadRec) (msg : InboundMessage)
    (db : Db) (q : Queues) : Except String (MessageHandlerResult × Db) × Queues :=
  match lead.state with
  | .NEW => handleNewState lead db q
  | .CHOOSE_OPTION => handleChooseOptionState lead msg db q
  | .FORM_SENT => handleFormState lead msg db q
  | .FORM_IN_PROGRESS => handleFormState lead msg db q
  | .FORM_COMPLETED => handleCompletedState lead msg db q
  | .PARTNERSHIP => handlePartnershipState lead msg db q
  | _ => (.ok ({ success := true, shouldReply := false }, db), q)

/-- Outcome of `processMessage`: the pool-committed database (writes of
`getOrCreateLead`/`markAsExisting`, which survive a rollback), the
transactional outcome, and the queues. -/
structure ProcOut where
  poolDb : Db
  txn : Except String (MessageHandlerResult × Db)
  q : Queues
deriving Repr

/-- The outgoing-message branch of `processMessage` (`if (fromMe)`):
mark the recipient as `EXISTING` and log an outbound interaction. -/
def processOutgoingBranch (msg : InboundMessage) (db : Db) (q : Queues) : ProcOut :=
  let me := markAsExisting msg.userId msg.source db
  let db2 := addInteraction me.1.id msg.messageId msg.text .dirOut me.2
  ⟨me.2, .ok ({ success := true, shouldReply := false }, db2), q⟩

/-- The inbound path of `processMessage` (everything after the
`if (fromMe)` branch). -/
def processInboundBranch (msg : InboundMessage) (db : Db) (q : Queues) : ProcOut :=
  let got := getOrCreateLead msg.userId msg.source (optsOfMessage msg) db
  let db2 := addInteraction got.lead.id msg.messageId msg.text .dirIn got.db
  if !shouldBotReply got.lead.state then
    ⟨got.db, .ok ({ success := true, shouldReply := false }, db2), q⟩
  else
    let hb := handleByState got.lead msg db2 q
    ⟨got.db, hb.1, hb.2⟩

/-- `processMessage` of `src/modules/message/message.handler.ts`: the
outgoing-message branch when the transport marks the message as ours,
otherwise get or create the lead, log the interaction, gate on
`shouldBotReply`, and dispatch by state. -/
def processMessage (msg : InboundMessage) (db : Db) (q : Queues) : ProcOut :=
  if msg.fromMe then processOutgoingBranch msg db q
  else processInboundBranch msg db q

/-- Steps 3 to 7 of `handleInboundMessage` (after the idempotency check
and mark): the cooldown short-circuit, the per-user lock, the outer
transaction around `processMessage`, the cooldown set after a reply. -/
def handleAdmitted (env : Env) (msg : InboundMessage) (s1 : Sys) :
    MessageHandlerResult × Sys :=
  if s1.cooldown.contains msg.userId then
    let got := getOrCreateLead msg.userId msg.source none s1.db
    let db2 := addInteraction got.lead.id msg.messageId msg.text .dirIn got.db
    let s2 := if env.commitOk then { s1 with db := db2 } else { s1 with db := got.db }
    ({ success := true, shouldReply := false }, s2)
  else if !env.lockAcquired then
    ({ success := false, shouldReply := false,
       error := some "Lock acquisition failed" }, s1)
  else
    match processMessage msg s1.db s1.q with
    | ⟨poolDb, .error e, q1⟩ =>
      ({ success := false, shouldReply := false, error := some e },
       { s1 with db := poolDb, q := q1 })
    | ⟨poolDb, .ok (res, db1), q1⟩ =>
      if env.commitOk then
        let s2 := { s1 with db := db1, q := q1 }
        let s3 :=
          if res.shouldReply then { s2 with cooldown := msg.userId :: s2.cooldown }
          else s2
        (res, s3)
      else
        ({ success := false, shouldReply := false,
           error := some "transaction commit failed" },
         { s1 with db := poolDb, q := q1 })

/-- `handleInboundMessage` of `src/modules/message/message.handler.ts`:
the idempotency check and mark (steps 1 and 2), then `handleAdmitted`
(steps 3 to 7).  On a transaction error or a failed commit the Postgres
writes of the transaction are rolled back while the Redis effects (the
idempotency mark and any enqueued jobs) remain. -/
def handleInboundMessage (env : Env) (msg : InboundMessage) (s : Sys) :
    MessageHandlerResult × Sys :=
  if env.redisUp && s.processed.contains (sourceKey msg.source, msg.messageId) then
    ({ success := true, shouldReply := false }, s)
  else
    handleAdmitted env msg
      (if env.redisUp then
        { s with processed := (sourceKey msg.source, msg.messageId) :: s.processed }
      else s)

/-! ## Admin state change, from `src/modules/admin/admin.controller.ts`

`PUT /api/admin/leads/:id/state` updates the state directly (any
transition) and resets `warning_count` to 0. -/

/-- The admin state-change update. -/
def adminChangeState (leadId : Nat) (state : LeadState) (db : Db) : Db :=
  { db with leads :=
      updateById leadId (fun l => { l with state := state, warning_count := 0 }) db.leads }

/-- System states reachable through the core handler and the admin
operations that touch lead state or warnings.  The cooldown and
idempotency keys are stored with a TTL, so any of them may expire
between invocations. -/
inductive Reachable : Sys → Prop where
  | init : Reachable sysInit
  | handler (env : Env) (msg : InboundMessage) {s : Sys} :
      Reachable s → Reachable (handleInboundMessage env msg s).2
  | adminState (leadId : Nat) (state : LeadState) {s : Sys} :
      Reachable s → Reachable { s with db := adminChangeState leadId state s.db }
  | adminReset (leadId : Nat) {s : Sys} :
      Reachable s → Reachable { s with db := resetWarningCount leadId s.db }
  | cooldownExpire (u : String) {s : Sys} :
      Reachable s → Reachable { s with cooldown := s.cooldown.erase u }
  | processedExpire (k : String × String) {s : Sys} :
      Reachable s → Reachable { s with processed := s.processed.erase k }

/-! ## Concrete scenario fixtures

Literal inputs of the end-to-end scenarios (§8 of the specification):
the WhatsApp user `628123456789@s.whatsapp.net`, a greeting, the option
`"1"`, and the complete form message. -/

/-- The scenario user id. -/
def userMain : String := "628123456789@s.whatsapp.net"

/-- An inbound WhatsApp message from the scenario user. -/
def mkMsg (mid text : String) : InboundMessage :=
  { source := .whatsapp, messageId := mid, userId := userMain, text := text
    fromMe := false, isGroup := false, isBroadcast := false, timestamp := 1 }

/-- Scenario message 1: a greeting. -/
def msgHalo : InboundMessage := mkMsg "m1" "Halo"

/-- The complete form message of scenario 3. -/
def formText : String :=
  "Nama, Domisili: Budi, Jakarta\nSumber info: Instagram\nJenis bisnis: F&B\nBudget: 100 juta\nRencana mulai: 3 bulan lagi"

/-- Scenario message 3: the complete form. -/
def msgForm : InboundMessage := mkMsg "m3" formText

/-- Invocation conditions with everything available. -/
def envAll : Env := ⟨true, true, true⟩

/-- Invocation conditions where the outer transaction fails to commit. -/
def envNoCommit : Env := ⟨true, true, false⟩

/-- Invocation conditions where the per-user lock cannot be acquired. -/
def envNoLock : Env := ⟨true, false, true⟩

/-- A lead row of the scenario user in `FORM_IN_PROGRESS`. -/
def leadFIP : LeadRec :=
  { id := 0, user_id := userMain, alt_id := none, push_name := none
    source := .whatsapp, state := .FORM_IN_PROGRESS, warning_count := 0 }

/-- A system state holding only `leadFIP`. -/
def sysFIP : Sys :=
  { db := { leads := [leadFIP], interactions := [], forms := [], nextId := 1 }
    q := queuesEmpty, processed := [], cooldown := [] }

/-- A lead row of the scenario user in `FORM_COMPLETED`. -/
def leadFC : LeadRec :=
  { leadFIP with state := .FORM_COMPLETED }

/-- A system state holding only `leadFC`. -/
def sysFC : Sys :=
  { sysFIP with db := { sysFIP.db with leads := [leadFC] } }

/-- Reachable run for the form-completion bug: greet (creating the
lead), admin moves the lead to `FORM_SENT`, the cooldown expires, then
the complete form message arrives. -/
def sysBugA : Sys := (handleInboundMessage envAll msgHalo sysInit).2

/-- Second step of the bug run: admin state change to `FORM_SENT`. -/
def sysBugB : Sys := { sysBugA with db := adminChangeState 0 .FORM_SENT sysBugA.db }

/-- Third step of the bug run: the cooldown key expires. -/
def sysBugC : Sys := { sysBugB with cooldown := sysBugB.cooldown.erase userMain }

/-- Final state of the bug run: the complete form message is processed. -/
def sysBugD : Sys := (handleInboundMessage envAll msgForm sysBugC).2

/-- The committed `lead_form_data` row of the bug run. -/
def bugRow : FormRow :=
  { lead_id := 0, biodata := none, source_info := some "Instagram"
    business_type := some "F&B", budget := some "100 juta"
    start_plan := some "3 bulan lagi", completed := true }

/-- The transition table exactly as §4.E of the specification lists it. -/
def specTransitionTable : List (LeadState × LeadState) :=
  [(.NEW, .CHOOSE_OPTION), (.NEW, .MANUAL_INTERVENTION),
   (.CHOOSE_OPTION, .FORM_SENT), (.CHOOSE_OPTION, .PARTNERSHIP),
   (.CHOOSE_OPTION, .MANUAL_INTERVENTION),
   (.FORM_SENT, .FORM_IN_PROGRESS), (.FORM_SENT, .MANUAL_INTERVENTION),
   (.FORM_IN_PROGRESS, .FORM_COMPLETED), (.FORM_IN_PROGRESS, .FORM_SENT),
   (.FORM_IN_PROGRESS, .MANUAL_INTERVENTION),
   (.FORM_COMPLETED, .MANUAL_INTERVENTION), (.FORM_COMPLETED, .PARTNERSHIP),
   (.MANUAL_INTERVENTION, .NEW), (.MANUAL_INTERVENTION, .CHOOSE_OPTION),
   (.MANUAL_INTERVENTION, .FORM_SENT), (.MANUAL_INTERVENTION, .PARTNERSHIP),
   (.PARTNERSHIP, .MANUAL_INTERVENTION)]

/-- A WAHA webhook payload marked `fromMe`, exercising the parser's
outgoing-message path. -/
def wahaFromMePayload : WAHAWebhookPayload :=
  { event := "message"
    payload := some
      { id := "m9"
        payloadFrom := "628999@s.whatsapp.net"
        toId := some userMain
        body := some "Halo"
        fromMe := true
        timestamp := some 5 } }

/-- The message the parser emits for `wahaFromMePayload`. -/
def wahaFromMeParsed : InboundMessage :=
  { source := .whatsapp, messageId := "m9"
    userId := normalizeUserId userMain .whatsapp, text := "Halo"
    fromMe := false, isGroup := false, isBroadcast := false, timestamp := 5
    metadata := some { lid := none, phone := none, pushName := none } }

/-! ## Invariants

`leadOk` and `dbOk` are the inductive invariants of the persistent store:
warning counts are bounded (with headroom in the states where the handler
can still increment them), row ids are unique and below the id counter,
and no `lead_form_data` row committed by the core carries a `biodata`
value (the core's `upsertFormData` never writes that column). -/

/-- Invariant of a single `leads` row. -/
def leadOk (l : LeadRec) : Prop :=
  0 ≤ l.warning_count ∧ l.warning_count ≤ 3 ∧
  (shouldBotReply l.state = true → l.warning_count ≤ 2)

/-- Invariant of the whole database. -/
def dbOk (db : Db) : Prop :=
  (db.leads.map (fun l => l.id)).Nodup ∧
  (∀ l ∈ db.leads, l.id < db.nextId) ∧
  (∀ l ∈ db.leads, leadOk l) ∧
  (∀ f ∈ db.forms, f.biodata = none)

/-! ## Theorems -/

/-- C5: `isValidTransition` accepts exactly the pairs of the §4.E table,
and `attemptTransition` succeeds exactly on those pairs, moving to the
target state, while on every other pair it reports an `InvalidTransition`
error and leaves the state unchanged. -/
theorem transition_table_correct :
    ∀ fromS toS : LeadState,
      isValidTransition fromS toS = specTransitionTable.contains (fromS, toS) ∧
      (attemptTransition fromS toS).success = isValidTransition fromS toS ∧
      (attemptTransition fromS toS).previousState = fromS ∧
      (attemptTransition fromS toS).newState =
        (if isValidTransition fromS toS then toS else fromS) ∧
      (attemptTransition fromS toS).error.isSome = !isValidTransition fromS toS := by
  intro fromS toS
  cases fromS <;> cases toS <;> exact (by decide)

theorem handleNewState_ok {lead : LeadRec} {db : Db} {q : Queues}
    {r : MessageHandlerResult} {db' : Db}
    (h : (handleNewState lead db q).1 = .ok (r, db')) :
    r.success = true := by
  unfold handleNewState at h
  cases hu : updateLeadStateE lead.id .CHOOSE_OPTION db with
  | error e => rw [hu] at h; simp at h
  | ok p => rw [hu] at h; simp at h; obtain ⟨rfl, -⟩ := h; rfl

theorem handleChooseOptionState_ok {lead : LeadRec} {msg : InboundMessage}
    {db : Db} {q : Queues} {r : MessageHandlerResult} {db' : Db}
    (h : (handleChooseOptionState lead msg db q).1 = .ok (r, db')) :
    r.success = true := by
  unfold handleChooseOptionState at h
  by_cases h1 : ((⟨trimL msg.text.data⟩ : String) == "1") = true
  · rw [if_pos h1] at h
    cases hu : updateLeadStateE lead.id .FORM_SENT db with
    | error e => rw [hu] at h; simp at h
    | ok p => rw [hu] at h; simp at h; obtain ⟨rfl, -⟩ := h; rfl
  · rw [if_neg h1] at h
    by_cases h2 : ((⟨trimL msg.text.data⟩ : String) == "2") = true
    · rw [if_pos h2] at h; simp at h; obtain ⟨rfl, -⟩ := h; rfl
    · rw [if_neg h2] at h
      by_cases h3 : ((⟨trimL msg.text.data⟩ : String) == "3") = true
      · rw [if_pos h3] at h; simp at h; obtain ⟨rfl, -⟩ := h; rfl
      · rw [if_neg h3] at h
        cases hw : incrementWarningCount lead.id db with
        | error e => rw [hw] at h; simp at h
        | ok p =>
          rw [hw] at h
          rcases p with ⟨l', esc, db1⟩
          by_cases he : esc = true
          · rw [he] at h; simp at h; obtain ⟨rfl, -⟩ := h; rfl
          · rw [Bool.not_eq_true] at he; rw [he] at h; simp at h
            obtain ⟨rfl, -⟩ := h; rfl

theorem handleFormState_ok {lead : LeadRec} {msg : InboundMessage}
    {db : Db} {q : Queues} {r : MessageHandlerResult} {db' : Db}
    (h : (handleFormState lead msg db q).1 = .ok (r, db')) :
    r.success = true := by
  unfold handleFormState at h
  by_cases hs : (lead.state == LeadState.FORM_SENT) = true
  · rw [if_pos hs] at h
    cases hu : updateLeadStateE lead.id .FORM_IN_PROGRESS db with
    | error e => rw [hu] at h; simp at h
    | ok p =>
      rw [hu] at h
      simp only [] at h
      by_cases hv : (validateFormData (parseFormData msg.text)
          ((getLeadFormData lead.id p.2).map rowToPartial)).valid = true
      · rw [if_pos hv] at h
        cases hc : updateLeadStateE lead.id .FORM_COMPLETED
            (upsertFormData lead.id { completed := some true }
              (upsertFormData lead.id (parseFormData msg.text) p.2)) with
        | error e => rw [hc] at h; simp at h
        | ok p2 => rw [hc] at h; simp at h; obtain ⟨rfl, -⟩ := h; rfl
      · rw [if_neg hv] at h
        cases hw : incrementWarningCount lead.id
            (upsertFormData lead.id (parseFormData msg.text) p.2) with
        | error e => rw [hw] at h; simp at h
        | ok p2 =>
          rw [hw] at h
          rcases p2 with ⟨l', esc, db3⟩
          by_cases he : esc = true
          · rw [he] at h; simp at h; obtain ⟨rfl, -⟩ := h; rfl
          · rw [Bool.not_eq_true] at he; rw [he] at h; simp at h
            obtain ⟨rfl, -⟩ := h; rfl
  · rw [if_neg hs] at h
    simp only [] at h
    by_cases hv : (validateFormData (parseFormData msg.text)
        ((getLeadFormData lead.id db).map rowToPartial)).valid = true
    · rw [if_pos hv] at h
      cases hc : updateLeadStateE lead.id .FORM_COMPLETED
          (upsertFormData lead.id { completed := some true }
            (upsertFormData lead.id (parseFormData msg.text) db)) with
      | error e => rw [hc] at h; simp at h
      | ok p2 => rw [hc] at h; simp at h; obtain ⟨rfl, -⟩ := h; rfl
    · rw [if_neg hv] at h
      cases hw : incrementWarningCount lead.id
          (upsertFormData lead.id (parseFormData msg.text) db) with
      | error e => rw [hw] at h; simp at h
      | ok p2 =>
        rw [hw] at h
        rcases p2 with ⟨l', esc, db3⟩
        by_cases he : esc = true
        · rw [he] at h; simp at h; obtain ⟨rfl, -⟩ := h; rfl
        · rw [Bool.not_eq_true] at he; rw [he] at h; simp at h
          obtain ⟨rfl, -⟩ := h; rfl

theorem handleCompletedState_ok {lead : LeadRec} {msg : InboundMessage}
    {db : Db} {q : Queues} {r : MessageHandlerResult} {db' : Db}
    (h : (handleCompletedState lead msg db q).1 = .ok (r, db')) :
    r.success = true := by
  unfold handleCompletedState at h
  simp at h; obtain ⟨rfl, -⟩ := h; rfl

theorem handlePartnershipState_ok {lead : LeadRec} {msg : InboundMessage}
    {db : Db} {q : Queues} {r : MessageHandlerResult} {db' : Db}
    (h : (handlePartnershipState lead msg db q).1 = .ok (r, db')) :
    r.success = true := by
  unfold handlePartnershipState at h
  simp at h; obtain ⟨rfl, -⟩ := h; rfl

theorem handleByState_ok {lead : LeadRec} {msg : InboundMessage}
    {db : Db} {q : Queues} {r : MessageHandlerResult} {db' : Db}
    (h : (handleByState lead msg db q).1 = .ok (r, db')) :
    r.success = true := by
  unfold handleByState at h
  split at h
  · exact handleNewState_ok h
  · exact handleChooseOptionState_ok h
  · exact handleFormState_ok h
  · exact handleFormState_ok h
  · exact handleCompletedState_ok h
  · exact handlePartnershipState_ok h
  · simp at h; obtain ⟨rfl, -⟩ := h; rfl

theorem processMessage_ok {msg : InboundMessage} {db : Db} {q : Queues}
    {r : MessageHandlerResult} {db' : Db}
    (h : (processMessage msg db q).txn = .ok (r, db')) :
    r.success = true := by
  unfold processMessage processOutgoingBranch processInboundBranch at h
  by_cases hf : msg.fromMe = true
  · rw [if_pos hf] at h; simp at h; obtain ⟨rfl, -⟩ := h; rfl
  · rw [if_neg hf] at h
    by_cases hb : (!shouldBotReply (getOrCreateLead msg.userId msg.source
        (optsOfMessage msg) db).lead.state) = true
    · rw [if_pos hb] at h; simp at h; obtain ⟨rfl, -⟩ := h; rfl
    · rw [if_neg hb] at h
      exact handleByState_ok h

theorem handleAdmitted_shape (env : Env) (msg : InboundMessage) (s1 : Sys) :
    (handleAdmitted env msg s1).1.success = true ∨
    ((handleAdmitted env msg s1).1.shouldReply = false ∧
     (handleAdmitted env msg s1).1.replyMessage = none ∧
     (handleAdmitted env msg s1).1.secondaryMessage = none) := by
  unfold handleAdmitted
  by_cases hc : (s1.cooldown.contains msg.userId) = true
  · rw [if_pos hc]; left; rfl
  · rw [if_neg hc]
    by_cases hl : (!env.lockAcquired) = true
    · rw [if_pos hl]; right; exact ⟨rfl, rfl, rfl⟩
    · rw [if_neg hl]
      cases hp : processMessage msg s1.db s1.q with
      | mk poolDb txn q1 =>
        cases txn with
        | error e => right; exact ⟨rfl, rfl, rfl⟩
        | ok p =>
          rcases p with ⟨res, db1⟩
          simp only []
          have hres : res.success = true :=
            @processMessage_ok msg s1.db s1.q res db1 (by rw [hp])
          by_cases hco : env.commitOk = true
          · rw [if_pos hco]
            left
            by_cases hr : res.shouldReply = true
            · rw [if_pos hr]; exact hres
            · rw [if_neg hr]; exact hres
          · rw [if_neg hco]; right; exact ⟨rfl, rfl, rfl⟩

theorem handleResult_shape (env : Env) (msg : InboundMessage) (s : Sys) :
    (handleInboundMessage env msg s).1.success = true ∨
    ((handleInboundMessage env msg s).1.shouldReply = false ∧
     (handleInboundMessage env msg s).1.replyMessage = none ∧
     (handleInboundMessage env msg s).1.secondaryMessage = none) := by
  unfold handleInboundMessage
  by_cases hd : (env.redisUp && s.processed.contains
      (sourceKey msg.source, msg.messageId)) = true
  · rw [if_pos hd]; left; rfl
  · rw [if_neg hd]; exact handleAdmitted_shape env msg _

/-- C10: whenever `handleInboundMessage` returns `success = false`, the
result carries `shouldReply = false` and no reply text (primary or
secondary): the core never emits a reply on a failed processing
attempt. -/
theorem failure_implies_no_reply (env : Env) (msg : InboundMessage) (s : Sys)
    (h : (handleInboundMessage env msg s).1.success = false) :
    (handleInboundMessage env msg s).1.shouldReply = false ∧
    (handleInboundMessage env msg s).1.replyMessage = none ∧
    (handleInboundMessage env msg s).1.secondaryMessage = none := by
  rcases handleResult_shape env msg s with hs | hs
  · rw [h] at hs; exact absurd hs (by simp)
  · exact hs

/-- Witness for C10 at a concrete failing input: the lock cannot be
acquired, the handler fails, and no reply is emitted. -/
theorem failure_implies_no_reply_witness :
    (handleInboundMessage envNoLock msgHalo sysInit).1.success = false ∧
    (handleInboundMessage envNoLock msgHalo sysInit).1.shouldReply = false ∧
    (handleInboundMessage envNoLock msgHalo sysInit).1.replyMessage = none ∧
    (handleInboundMessage envNoLock msgHalo sysInit).1.secondaryMessage = none :=
  ⟨by decide, failure_implies_no_reply envNoLock msgHalo sysInit (by decide)⟩

/-! ### List and store lemmas -/

theorem updateById_mem {i : Nat} {f : LeadRec → LeadRec} {leads : List LeadRec}
    {l' : LeadRec} (h : l' ∈ updateById i f leads) :
    ∃ l ∈ leads, l' = if (l.id == i) = true then f l else l := by
  unfold updateById at h
  rcases List.mem_map.mp h with ⟨l, hl, hfl⟩
  exact ⟨l, hl, hfl.symm⟩

theorem mem_updateById {i : Nat} (f : LeadRec → LeadRec) {leads : List LeadRec}
    {l : LeadRec} (h : l ∈ leads) :
    (if (l.id == i) = true then f l else l) ∈ updateById i f leads := by
  unfold updateById
  exact List.mem_map.mpr ⟨l, h, rfl⟩

theorem self_mem_updateById (f : LeadRec → LeadRec) {leads : List LeadRec}
    {l : LeadRec} (h : l ∈ leads) : f l ∈ updateById l.id f leads := by
  have hh := mem_updateById (i := l.id) f h
  rwa [if_pos (by simp)] at hh

theorem getOrCreateLead_leads_preserved (u : String) (src : MessageSource)
    (opts : Option GetLeadOptions) (db : Db) {l : LeadRec} (h : l ∈ db.leads) :
    ∃ l' ∈ (getOrCreateLead u src opts db).db.leads,
      l'.id = l.id ∧ l'.state = l.state ∧ l'.warning_count = l.warning_count := by
  unfold getOrCreateLead
  split
  · exact ⟨l, List.mem_append_left _ h, rfl, rfl, rfl⟩
  · next lead hg =>
    by_cases hu : shouldUpdateMetadata lead opts = true
    · rw [if_pos hu]
      refine ⟨_, mem_updateById (i := lead.id) _ h, ?_, ?_, ?_⟩ <;>
        (by_cases hid : (l.id == lead.id) = true <;> simp [hid])
    · rw [if_neg hu]
      exact ⟨l, h, rfl, rfl, rfl⟩

theorem handleAdmitted_processed (env : Env) (msg : InboundMessage) (s1 : Sys) :
    (handleAdmitted env msg s1).2.processed = s1.processed := by
  unfold handleAdmitted
  by_cases hc : (s1.cooldown.contains msg.userId) = true
  · rw [if_pos hc]
    by_cases hco : env.commitOk = true <;> simp [hco]
  · rw [if_neg hc]
    by_cases hl : (!env.lockAcquired) = true
    · rw [if_pos hl]
    · rw [if_neg hl]
      cases hp : processMessage msg s1.db s1.q with
      | mk poolDb txn q1 =>
        cases txn with
        | error e => rfl
        | ok p =>
          rcases p with ⟨res, db1⟩
          simp only []
          by_cases hco : env.commitOk = true
          · by_cases hr : res.shouldReply = true <;> simp [hco, hr]
          · simp [hco]

/-- After any non-duplicate invocation with the idempotency store up, the
message key is marked in the final state. -/
theorem handle_marks (env : Env) (msg : InboundMessage) (s : Sys)
    (h : env.redisUp = true) :
    ((handleInboundMessage env msg s).2).processed.contains
      (sourceKey msg.source, msg.messageId) = true := by
  unfold handleInboundMessage
  by_cases hd : (env.redisUp && s.processed.contains
      (sourceKey msg.source, msg.messageId)) = true
  · rw [if_pos hd]
    exact (Bool.and_eq_true _ _ |>.mp hd).2
  · rw [if_neg hd]
    rw [handleAdmitted_processed]
    rw [if_pos h]
    simp

/-- C6: processing the same message twice (with the idempotency backing
store available on both invocations) leaves the system in the state the
first invocation produced, and the second invocation emits no reply. -/
theorem handle_idempotent (env1 env2 : Env) (msg : InboundMessage) (s : Sys)
    (h1 : env1.redisUp = true) (h2 : env2.redisUp = true) :
    handleInboundMessage env2 msg (handleInboundMessage env1 msg s).2 =
      ({ success := true, shouldReply := false },
       (handleInboundMessage env1 msg s).2) := by
  have hm := handle_marks env1 msg s h1
  have hcond : (env2.redisUp &&
      ((handleInboundMessage env1 msg s).2).processed.contains
        (sourceKey msg.source, msg.messageId)) = true := by
    rw [h2, hm]; rfl
  conv_lhs => rw [handleInboundMessage]
  rw [if_pos hcond]

/-- Witness for C6 at a concrete input: the greeting message processed
twice from the initial state. -/
theorem handle_idempotent_witness :
    handleInboundMessage envAll msgHalo (handleInboundMessage envAll msgHalo sysInit).2 =
      ({ success := true, shouldReply := false },
       (handleInboundMessage envAll msgHalo sysInit).2) :=
  handle_idempotent envAll envAll msgHalo sysInit rfl rfl

/-- C8: a non-duplicate message from a user in cooldown is persisted as
an inbound interaction against the (possibly newly created) lead, no
state transition happens, no job is enqueued, and the handler returns
success with no reply. -/
theorem cooldown_persists_interaction_no_reply (env : Env) (msg : InboundMessage)
    (s : Sys) (hr : env.redisUp = true) (hco : env.commitOk = true)
    (hnd : s.processed.contains (sourceKey msg.source, msg.messageId) = false)
    (hcd : s.cooldown.contains msg.userId = true) :
    handleInboundMessage env msg s =
      ({ success := true, shouldReply := false },
       { s with
         processed := (sourceKey msg.source, msg.messageId) :: s.processed
         db := addInteraction (getOrCreateLead msg.userId msg.source none s.db).lead.id
           msg.messageId msg.text .dirIn
           (getOrCreateLead msg.userId msg.source none s.db).db }) ∧
    ∀ l ∈ s.db.leads, ∃ l' ∈ (handleInboundMessage env msg s).2.db.leads,
      l'.id = l.id ∧ l'.state = l.state := by
  have hmain : handleInboundMessage env msg s =
      ({ success := true, shouldReply := false },
       { s with
         processed := (sourceKey msg.source, msg.messageId) :: s.processed
         db := addInteraction (getOrCreateLead msg.userId msg.source none s.db).lead.id
           msg.messageId msg.text .dirIn
           (getOrCreateLead msg.userId msg.source none s.db).db }) := by
    unfold handleInboundMessage
    have hd : (env.redisUp && s.processed.contains
        (sourceKey msg.source, msg.messageId)) = false := by
      rw [hr, hnd]; rfl
    rw [hd]
    simp only [Bool.false_eq_true, if_false]
    rw [if_pos hr]
    unfold handleAdmitted
    rw [if_pos hcd]
    simp [hco]
  refine ⟨hmain, fun l hl => ?_⟩
  rw [hmain]
  simp only [addInteraction]
  rcases getOrCreateLead_leads_preserved msg.userId msg.source none s.db hl with
    ⟨l', hl', hid, hst, -⟩
  exact ⟨l', hl', hid, hst⟩

/-- Witness for C8 at a concrete input: the scenario user is in cooldown
and sends a fresh message. -/
theorem cooldown_persists_interaction_no_reply_witness :
    (handleInboundMessage envAll msgHalo
        { sysFIP with cooldown := [userMain] }).1 =
      { success := true, shouldReply := false } ∧
    (handleInboundMessage envAll msgHalo
        { sysFIP with cooldown := [userMain] }).2.db.interactions =
      [⟨0, "m1", "Halo", .dirIn⟩] := by
  have h := cooldown_persists_interaction_no_reply envAll msgHalo
    { sysFIP with cooldown := [userMain] } rfl rfl (by decide) (by decide)
  constructor
  · rw [h.1]
  · rw [h.1]; decide

theorem getOrCreateLead_found {u : String} {db : Db} {leadX : LeadRec}
    (src : MessageSource) (opts : Option GetLeadOptions)
    (hg : getLeadByUserId u db = some leadX) :
    (getOrCreateLead u src opts db).lead.id = leadX.id ∧
    (getOrCreateLead u src opts db).lead.state = leadX.state ∧
    (getOrCreateLead u src opts db).lead.warning_count = leadX.warning_count ∧
    ∀ l' ∈ (getOrCreateLead u src opts db).db.leads,
      ∃ l ∈ db.leads, l'.id = l.id ∧ l'.state = l.state ∧
        l'.warning_count = l.warning_count := by
  unfold getOrCreateLead
  split
  · next hnone => rw [hg] at hnone; exact absurd hnone (by simp)
  · next lead2 hsome =>
    rw [hg] at hsome
    obtain rfl : lead2 = leadX := by injection hsome with he; exact he.symm
    by_cases hu : shouldUpdateMetadata lead2 opts = true
    · rw [if_pos hu]
      refine ⟨rfl, rfl, rfl, fun l' hl' => ?_⟩
      rcases updateById_mem hl' with ⟨l, hl, rfl⟩
      by_cases hid : (l.id == lead2.id) = true <;> simp [hid] <;>
        exact ⟨l, hl, rfl, rfl, rfl⟩
    · rw [if_neg hu]
      exact ⟨rfl, rfl, rfl, fun l' hl' => ⟨l', hl', rfl, rfl, rfl⟩⟩

/-- When the bot may not reply in the lead's current state, the inbound
path logs the interaction and stops before any dispatch. -/
theorem processMessage_silent {msg : InboundMessage} {db : Db} {lead : LeadRec}
    (q : Queues) (hf : msg.fromMe = false)
    (hg : getLeadByUserId msg.userId db = some lead)
    (hs : shouldBotReply lead.state = false) :
    processMessage msg db q =
      ⟨(getOrCreateLead msg.userId msg.source (optsOfMessage msg) db).db,
       .ok ({ success := true, shouldReply := false },
         addInteraction
           (getOrCreateLead msg.userId msg.source (optsOfMessage msg) db).lead.id
           msg.messageId msg.text .dirIn
           (getOrCreateLead msg.userId msg.source (optsOfMessage msg) db).db),
       q⟩ := by
  unfold processMessage processOutgoingBranch processInboundBranch
  rw [hf]
  simp only [Bool.false_eq_true, if_false]
  have hstate := (getOrCreateLead_found msg.source (optsOfMessage msg) hg).2.1
  have hcond : (!shouldBotReply
      (getOrCreateLead msg.userId msg.source (optsOfMessage msg) db).lead.state) = true := by
    rw [hstate, hs]; rfl
  rw [if_pos hcond]

/-- C4 counterexample: a lead in `FORM_COMPLETED` receives an inbound
message under fully available conditions; contrary to the claim, no
escalation notification is enqueued, the state does not change, and no
`QUESTION_RECEIVED` reply is emitted. -/
theorem form_completed_no_escalation_cex :
    (handleInboundMessage envAll msgHalo sysFC).1.shouldReply = false ∧
    (handleInboundMessage envAll msgHalo sysFC).1.replyMessage = none ∧
    (handleInboundMessage envAll msgHalo sysFC).2.q.notify = [] ∧
    (handleInboundMessage envAll msgHalo sysFC).2.db.leads = [leadFC] := by
  decide

theorem handleAdmitted_silent {env : Env} {msg : InboundMessage} {s1 : Sys}
    {lead : LeadRec} (hf : msg.fromMe = false)
    (hg : getLeadByUserId msg.userId s1.db = some lead)
    (hs : shouldBotReply lead.state = false) :
    (handleAdmitted env msg s1).1.shouldReply = false ∧
    (handleAdmitted env msg s1).1.replyMessage = none ∧
    (handleAdmitted env msg s1).2.q = s1.q ∧
    ∀ l' ∈ (handleAdmitted env msg s1).2.db.leads,
      ∃ l ∈ s1.db.leads, l'.id = l.id ∧ l'.state = l.state := by
  unfold handleAdmitted
  by_cases hc : (s1.cooldown.contains msg.userId) = true
  · rw [if_pos hc]
    refine ⟨rfl, rfl, ?_, ?_⟩
    · by_cases hco : env.commitOk = true <;> simp [hco]
    · intro l' hl'
      by_cases hco : env.commitOk = true <;>
        simp only [hco, Bool.false_eq_true, if_true, if_false, addInteraction] at hl' <;>
        · rcases (getOrCreateLead_found msg.source none hg).2.2.2 l' hl' with
            ⟨l, hl, hid, hst, -⟩
          exact ⟨l, hl, hid, hst⟩
  · rw [if_neg hc]
    by_cases hl : (!env.lockAcquired) = true
    · rw [if_pos hl]
      exact ⟨rfl, rfl, rfl, fun l' hl' => ⟨l', hl', rfl, rfl⟩⟩
    · rw [if_neg hl]
      rw [processMessage_silent s1.q hf hg hs]
      refine ⟨?_, ?_, ?_, ?_⟩
      · by_cases hco : env.commitOk = true <;> simp [hco]
      · by_cases hco : env.commitOk = true <;> simp [hco]
      · by_cases hco : env.commitOk = true <;> simp [hco]
      · intro l' hl'
        by_cases hco : env.commitOk = true <;>
          simp only [hco, Bool.false_eq_true, if_true, if_false, addInteraction] at hl' <;>
          · rcases (getOrCreateLead_found msg.source (optsOfMessage msg) hg).2.2.2 l' hl' with
              ⟨l, hl2, hid, hst, -⟩
            exact ⟨l, hl2, hid, hst⟩

/-- C4 amended: for every inbound (not own) message of a lead whose
state is `FORM_COMPLETED`, `shouldBotReply` is false, so the core
returns without reply, without enqueuing any job, and without a state
transition; the `post_form_contact` escalation branch is unreachable. -/
theorem form_completed_state_silent (env : Env) (msg : InboundMessage) (s : Sys)
    {lead : LeadRec} (hf : msg.fromMe = false)
    (hg : getLeadByUserId msg.userId s.db = some lead)
    (hs : lead.state = .FORM_COMPLETED) :
    (handleInboundMessage env msg s).1.shouldReply = false ∧
    (handleInboundMessage env msg s).1.replyMessage = none ∧
    (handleInboundMessage env msg s).2.q = s.q ∧
    ∀ l' ∈ (handleInboundMessage env msg s).2.db.leads,
      ∃ l ∈ s.db.leads, l'.id = l.id ∧ l'.state = l.state := by
  have hsb : shouldBotReply lead.state = false := by rw [hs]; rfl
  unfold handleInboundMessage
  by_cases hd : (env.redisUp && s.processed.contains
      (sourceKey msg.source, msg.messageId)) = true
  · rw [if_pos hd]
    exact ⟨rfl, rfl, rfl, fun l' hl' => ⟨l', hl', rfl, rfl⟩⟩
  · rw [if_neg hd]
    by_cases hredis : env.redisUp = true
    · rw [if_pos hredis]
      exact handleAdmitted_silent hf hg hsb
    · rw [if_neg hredis]
      exact handleAdmitted_silent hf hg hsb

/-- Witness for the amended C4 at the concrete `FORM_COMPLETED` state. -/
theorem form_completed_state_silent_witness :
    (handleInboundMessage envAll msgHalo sysFC).1.shouldReply = false ∧
    (handleInboundMessage envAll msgHalo sysFC).1.replyMessage = none ∧
    (handleInboundMessage envAll msgHalo sysFC).2.q = sysFC.q :=
  have h := @form_completed_state_silent envAll msgHalo sysFC leadFC
    rfl (by decide) rfl
  ⟨h.1, h.2.1, h.2.2.1⟩

/-- C3 counterexample: on a fresh message whose per-user lock cannot be
acquired the handler returns `success = false` — but the message HAS been
marked processed (the mark precedes lock acquisition), the database is
untouched, and a redelivery of the same message under available
conditions is dropped as a duplicate with no further processing. -/
theorem lock_failure_marks_processed_cex :
    (handleInboundMessage envNoLock msgHalo sysInit).1.success = false ∧
    (handleInboundMessage envNoLock msgHalo sysInit).2.processed.contains
      ("whatsapp", "m1") = true ∧
    (handleInboundMessage envNoLock msgHalo sysInit).2.db = sysInit.db ∧
    handleInboundMessage envAll msgHalo
        (handleInboundMessage envNoLock msgHalo sysInit).2 =
      ({ success := true, shouldReply := false },
       (handleInboundMessage envNoLock msgHalo sysInit).2) := by
  decide

/-- C3 amended: when lock acquisition fails after all retries on a fresh
message (and the idempotency store is up), the handler returns
`success = false` with the message already marked processed, so any
transport redelivery of the same `(transport, message_id)` is dropped as
a duplicate, leaving the system unchanged. -/
theorem lock_failure_redelivery_dropped (env : Env) (msg : InboundMessage)
    (s : Sys) (hr : env.redisUp = true) (hl : env.lockAcquired = false)
    (hnd : s.processed.contains (sourceKey msg.source, msg.messageId) = false)
    (hcd : s.cooldown.contains msg.userId = false) :
    handleInboundMessage env msg s =
      ({ success := false, shouldReply := false,
         error := some "Lock acquisition failed" },
       { s with processed := (sourceKey msg.source, msg.messageId) :: s.processed }) ∧
    ∀ env2 : Env, env2.redisUp = true →
      handleInboundMessage env2 msg (handleInboundMessage env msg s).2 =
        ({ success := true, shouldReply := false },
         (handleInboundMessage env msg s).2) := by
  constructor
  · unfold handleInboundMessage
    have hd : (env.redisUp && s.processed.contains
        (sourceKey msg.source, msg.messageId)) = false := by
      rw [hr, hnd]; rfl
    rw [hd]
    simp only [Bool.false_eq_true, if_false]
    rw [if_pos hr]
    unfold handleAdmitted
    rw [if_neg (by simpa using hcd)]
    rw [if_pos (by rw [hl]; rfl)]
  · exact fun env2 h2 => handle_idempotent env env2 msg s hr h2

/-- Witness for the amended C3 at a concrete input. -/
theorem lock_failure_redelivery_dropped_witness :
    handleInboundMessage envNoLock msgHalo sysInit =
      ({ success := false, shouldReply := false,
         error := some "Lock acquisition failed" },
       { sysInit with processed :=
          (sourceKey msgHalo.source, msgHalo.messageId) :: sysInit.processed }) ∧
    handleInboundMessage envAll msgHalo
        (handleInboundMessage envNoLock msgHalo sysInit).2 =
      ({ success := true, shouldReply := false },
       (handleInboundMessage envNoLock msgHalo sysInit).2) := by
  have h := lock_failure_redelivery_dropped envNoLock msgHalo sysInit rfl rfl
    (by decide) (by decide)
  exact ⟨h.1, h.2 envAll rfl⟩

/-! ### Lemmas for the form-completion flow -/

theorem attemptTransition_ok {a b : LeadState} (h : isValidTransition a b = true) :
    attemptTransition a b =
      { success := true, previousState := a, newState := b, error := none } := by
  unfold attemptTransition
  rw [if_pos h]

theorem updateLeadStateE_found {i : Nat} {toS : LeadState} {db : Db} {leadX : LeadRec}
    (hf : db.leads.find? (fun l => l.id == i) = some leadX)
    (ht : isValidTransition leadX.state toS = true) :
    updateLeadStateE i toS db =
      .ok (some { leadX with state := toS },
        { db with leads := updateById i (fun l => { l with state := toS }) db.leads }) := by
  unfold updateLeadStateE
  split
  · next h0 => rw [hf] at h0; exact absurd h0 (by simp)
  · next cur hcur =>
    rw [hf] at hcur
    obtain rfl : cur = leadX := by injection hcur with he; exact he.symm
    rw [attemptTransition_ok ht]
    rfl

/-- `getOrCreateLead` with empty metadata options returns the found lead
and leaves the database unchanged. -/
theorem getOrCreateLead_noMeta {u : String} (src : MessageSource) {db : Db}
    {leadX : LeadRec} (hg : getLeadByUserId u db = some leadX) :
    getOrCreateLead u src (some { pushName := none, lid := none }) db =
      ⟨leadX, false, db⟩ := by
  unfold getOrCreateLead
  split
  · next hnone => rw [hg] at hnone; exact absurd hnone (by simp)
  · next lead2 hsome =>
    rw [hg] at hsome
    obtain rfl : lead2 = leadX := by injection hsome with he; exact he.symm
    rw [if_neg (by intro hcontra; exact absurd hcontra (by simp [shouldUpdateMetadata, truthyOpt]))]

theorem upsertFormData_leads (i : Nat) (d : ParsedForm) (db : Db) :
    (upsertFormData i d db).leads = db.leads := by
  unfold upsertFormData
  cases h : getLeadFormData i db <;> rfl

theorem optsOfMessage_none {msg : InboundMessage} (h : msg.metadata = none) :
    optsOfMessage msg = some { pushName := none, lid := none } := by
  unfold optsOfMessage
  rw [h]
  rfl

/-- The transactional outcome of the form-completion branch: with a lead
in `FORM_IN_PROGRESS`, empty message metadata, and a message whose parsed
form data validates as complete against the stored fragment, the inbound
path upserts the fragment, marks it completed, moves the lead to
`FORM_COMPLETED`, and enqueues the spreadsheet-sync job and the
`form_completed` notification. -/
theorem processMessage_form_complete {msg : InboundMessage} {db : Db}
    {leadX : LeadRec} (q : Queues) (hf : msg.fromMe = false)
    (hmeta : msg.metadata = none)
    (hg : getLeadByUserId msg.userId db = some leadX)
    (hst : leadX.state = .FORM_IN_PROGRESS)
    (hfind : db.leads.find? (fun l => l.id == leadX.id) = some leadX)
    (hvalid : (validateFormData (parseFormData msg.text)
      ((getLeadFormData leadX.id db).map rowToPartial)).valid = true) :
    processMessage msg db q =
      ⟨db,
       .ok ({ success := true, shouldReply := true,
              replyMessage := some (getMessage "FORM_RECEIVED") },
         { upsertFormData leadX.id { completed := some true }
             (upsertFormData leadX.id (parseFormData msg.text)
               (addInteraction leadX.id msg.messageId msg.text .dirIn db)) with
           leads := updateById leadX.id (fun l => { l with state := .FORM_COMPLETED })
             db.leads }),
       { q with
         sheets := q.sheets ++
           [⟨leadX.id, leadX.user_id, msg.source,
             (validateFormData (parseFormData msg.text)
               ((getLeadFormData leadX.id db).map rowToPartial)).parsedData⟩]
         notify := q.notify ++
           [⟨"form_completed",
             .form leadX.id leadX.user_id
               (validateFormData (parseFormData msg.text)
                 ((getLeadFormData leadX.id db).map rowToPartial)).parsedData⟩] }⟩ := by
  unfold processMessage processOutgoingBranch processInboundBranch
  rw [hf]
  simp only [Bool.false_eq_true, if_false]
  rw [optsOfMessage_none hmeta, getOrCreateLead_noMeta msg.source hg]
  simp only []
  rw [if_neg (by rw [hst]; decide)]
  unfold handleByState
  rw [hst]
  simp only []
  unfold handleFormState
  rw [if_neg (by rw [hst]; decide)]
  simp only []
  have hforms : getLeadFormData leadX.id
      (addInteraction leadX.id msg.messageId msg.text .dirIn db) =
      getLeadFormData leadX.id db := rfl
  rw [hforms, if_pos hvalid]
  have hfind2 : (upsertFormData leadX.id { completed := some true }
      (upsertFormData leadX.id (parseFormData msg.text)
        (addInteraction leadX.id msg.messageId msg.text .dirIn db))).leads.find?
      (fun l => l.id == leadX.id) = some leadX := by
    rw [upsertFormData_leads, upsertFormData_leads]
    exact hfind
  rw [updateLeadStateE_found hfind2 (by rw [hst]; rfl)]
  rw [upsertFormData_leads, upsertFormData_leads]
  rfl

theorem handleAdmitted_form_rollback {env : Env} {msg : InboundMessage}
    {s1 : Sys} {leadX : LeadRec}
    (hcd : s1.cooldown.contains msg.userId = false)
    (hlock : env.lockAcquired = true) (hcommit : env.commitOk = false)
    (hf : msg.fromMe = false) (hmeta : msg.metadata = none)
    (hg : getLeadByUserId msg.userId s1.db = some leadX)
    (hst : leadX.state = .FORM_IN_PROGRESS)
    (hfind : s1.db.leads.find? (fun l => l.id == leadX.id) = some leadX)
    (hvalid : (validateFormData (parseFormData msg.text)
      ((getLeadFormData leadX.id s1.db).map rowToPartial)).valid = true) :
    handleAdmitted env msg s1 =
      ({ success := false, shouldReply := false,
         error := some "transaction commit failed" },
       { s1 with q :=
          { sheets := s1.q.sheets ++
              [⟨leadX.id, leadX.user_id, msg.source,
                (validateFormData (parseFormData msg.text)
                  ((getLeadFormData leadX.id s1.db).map rowToPartial)).parsedData⟩]
            notify := s1.q.notify ++
              [⟨"form_completed",
                .form leadX.id leadX.user_id
                  (validateFormData (parseFormData msg.text)
                    ((getLeadFormData leadX.id s1.db).map rowToPartial)).parsedData⟩] } }) := by
  unfold handleAdmitted
  rw [if_neg (by simpa using hcd)]
  rw [if_neg (by rw [hlock]; simp)]
  rw [processMessage_form_complete s1.q hf hmeta hg hst hfind hvalid]
  simp only [hcommit, Bool.false_eq_true, if_false]

/-- C2 counterexample: the outer transaction of a form-completing message
rolls back, yet the spreadsheet-sync job and the `form_completed`
notification enqueued inside it remain visible in the queues. -/
theorem jobs_visible_after_rollback_cex :
    (handleInboundMessage envNoCommit msgForm sysFIP).1.success = false ∧
    (handleInboundMessage envNoCommit msgForm sysFIP).2.db = sysFIP.db ∧
    (handleInboundMessage envNoCommit msgForm sysFIP).2.q.sheets.length = 1 ∧
    (handleInboundMessage envNoCommit msgForm sysFIP).2.q.notify.length = 1 := by
  decide

/-- C2 amended: jobs enqueued by the form-completion branch go to the
Redis-backed queues, which are outside the Postgres transaction; when the
outer transaction fails to commit, the database rolls back but both jobs
remain visible. -/
theorem jobs_survive_rollback (env : Env) (msg : InboundMessage) (s : Sys)
    {leadX : LeadRec}
    (hnd : (env.redisUp && s.processed.contains
      (sourceKey msg.source, msg.messageId)) = false)
    (hcd : s.cooldown.contains msg.userId = false)
    (hlock : env.lockAcquired = true) (hcommit : env.commitOk = false)
    (hf : msg.fromMe = false) (hmeta : msg.metadata = none)
    (hg : getLeadByUserId msg.userId s.db = some leadX)
    (hst : leadX.state = .FORM_IN_PROGRESS)
    (hfind : s.db.leads.find? (fun l => l.id == leadX.id) = some leadX)
    (hvalid : (validateFormData (parseFormData msg.text)
      ((getLeadFormData leadX.id s.db).map rowToPartial)).valid = true) :
    (handleInboundMessage env msg s).1 =
      { success := false, shouldReply := false,
        error := some "transaction commit failed" } ∧
    (handleInboundMessage env msg s).2.db = s.db ∧
    (handleInboundMessage env msg s).2.q.sheets = s.q.sheets ++
      [⟨leadX.id, leadX.user_id, msg.source,
        (validateFormData (parseFormData msg.text)
          ((getLeadFormData leadX.id s.db).map rowToPartial)).parsedData⟩] ∧
    (handleInboundMessage env msg s).2.q.notify = s.q.notify ++
      [⟨"form_completed",
        .form leadX.id leadX.user_id
          (validateFormData (parseFormData msg.text)
            ((getLeadFormData leadX.id s.db).map rowToPartial)).parsedData⟩] := by
  unfold handleInboundMessage
  rw [hnd]
  simp only [Bool.false_eq_true, if_false]
  by_cases hredis : env.redisUp = true
  · rw [if_pos hredis]
    have key := @handleAdmitted_form_rollback env msg
      { s with processed := (sourceKey msg.source, msg.messageId) :: s.processed }
      leadX hcd hlock hcommit hf hmeta hg hst hfind hvalid
    rw [key]
    exact ⟨rfl, rfl, rfl, rfl⟩
  · rw [if_neg hredis]
    have key := @handleAdmitted_form_rollback env msg s
      leadX hcd hlock hcommit hf hmeta hg hst hfind hvalid
    rw [key]
    exact ⟨rfl, rfl, rfl, rfl⟩

/-- Witness for the amended C2 at the concrete rollback scenario. -/
theorem jobs_survive_rollback_witness :
    (handleInboundMessage envNoCommit msgForm sysFIP).1.success = false ∧
    (handleInboundMessage envNoCommit msgForm sysFIP).2.db = sysFIP.db ∧
    (handleInboundMessage envNoCommit msgForm sysFIP).2.q.sheets ≠ [] ∧
    (handleInboundMessage envNoCommit msgForm sysFIP).2.q.notify ≠ [] := by
  have h := @jobs_survive_rollback envNoCommit msgForm sysFIP leadFIP
    (by decide) (by decide) rfl rfl rfl rfl (by decide) rfl (by decide) (by decide)
  refine ⟨by rw [h.1], h.2.1, ?_, ?_⟩
  · rw [h.2.2.1]; simp
  · rw [h.2.2.2]; simp

/-! ### Invariant preservation: list infrastructure -/

theorem find?_id_of_nodup {leads : List LeadRec}
    (hnd : (leads.map (fun l => l.id)).Nodup) {lead : LeadRec} (hm : lead ∈ leads) :
    leads.find? (fun l => l.id == lead.id) = some lead := by
  induction leads with
  | nil => exact absurd hm (by simp)
  | cons a tl ih =>
    rcases List.mem_cons.mp hm with rfl | htl
    · simp [List.find?_cons]
    · rw [List.map_cons, List.nodup_cons] at hnd
      have hne : (a.id == lead.id) = false := by
        rw [Bool.eq_false_iff]
        intro hx
        exact hnd.1 (by
          rw [show a.id = lead.id from by simpa using hx]
          exact List.mem_map.mpr ⟨lead, htl, rfl⟩)
      rw [List.find?_cons, hne]
      exact ih hnd.2 htl

theorem updateById_map_id {i : Nat} {f : LeadRec → LeadRec}
    (hid : ∀ l, (f l).id = l.id) (leads : List LeadRec) :
    (updateById i f leads).map (fun l => l.id) = leads.map (fun l => l.id) := by
  unfold updateById
  rw [List.map_map]
  apply List.map_congr_left
  intro l hl
  show (if (l.id == i) = true then f l else l).id = l.id
  split
  · exact hid l
  · rfl

theorem updateById_comp {i : Nat} {f g : LeadRec → LeadRec}
    (hgid : ∀ l, (g l).id = l.id) (leads : List LeadRec) :
    updateById i f (updateById i g leads) = updateById i (fun l => f (g l)) leads := by
  unfold updateById
  rw [List.map_map]
  apply List.map_congr_left
  intro l hl
  by_cases hcase : (l.id == i) = true <;>
    simp only [Function.comp_apply, hgid l, hcase, if_true, Bool.false_eq_true, if_false]

theorem find?_updateById {i : Nat} {f : LeadRec → LeadRec}
    (hid : ∀ l, (f l).id = l.id) {leads : List LeadRec}
    (hnd : (leads.map (fun l => l.id)).Nodup) {lead : LeadRec}
    (hm : lead ∈ leads) (hi : (lead.id == i) = true) :
    (updateById i f leads).find? (fun l => l.id == i) = some (f lead) := by
  induction leads with
  | nil => exact absurd hm (by simp)
  | cons a tl ih =>
    rw [List.map_cons, List.nodup_cons] at hnd
    rcases List.mem_cons.mp hm with rfl | htl
    · show ((if (lead.id == i) = true then f lead else lead) ::
          updateById i f tl).find? (fun l => l.id == i) = some (f lead)
      rw [if_pos hi]
      exact List.find?_cons_of_pos _ (by rw [hid lead]; exact hi)
    · have hne : (a.id == i) = false := by
        rw [Bool.eq_false_iff]
        intro hx
        refine hnd.1 ?_
        have h1 : a.id = i := by simpa using hx
        have h2 : lead.id = i := by simpa using hi
        rw [h1, ← h2]
        exact List.mem_map.mpr ⟨lead, htl, rfl⟩
      show ((if (a.id == i) = true then f a else a) ::
          updateById i f tl).find? (fun l => l.id == i) = some (f lead)
      rw [if_neg (by simp [hne])]
      rw [List.find?_cons_of_neg _ (by simp [hne])]
      exact ih hnd.2 htl
theorem leads_id_unique {db : Db} (h : dbOk db) {a b : LeadRec}
    (ha : a ∈ db.leads) (hb : b ∈ db.leads) (hab : a.id = b.id) : a = b :=
  List.inj_on_of_nodup_map h.1 ha hb hab

theorem dbOk_updateById {db : Db} {i : Nat} {f : LeadRec → LeadRec}
    (hid : ∀ l, (f l).id = l.id)
    (hok : ∀ l ∈ db.leads, (l.id == i) = true → leadOk (f l))
    (h : dbOk db) : dbOk { db with leads := updateById i f db.leads } := by
  obtain ⟨hnd, hlt, hlo, hfo⟩ := h
  refine ⟨?_, ?_, ?_, hfo⟩
  · show ((updateById i f db.leads).map (fun l => l.id)).Nodup
    rw [updateById_map_id hid]
    exact hnd
  · intro l hl
    rcases updateById_mem hl with ⟨l0, hl0, rfl⟩
    show (if (l0.id == i) = true then f l0 else l0).id < db.nextId
    split
    · rw [hid l0]; exact hlt l0 hl0
    · exact hlt l0 hl0
  · intro l hl
    rcases updateById_mem hl with ⟨l0, hl0, rfl⟩
    by_cases hc : (l0.id == i) = true
    · rw [if_pos hc]; exact hok l0 hl0 hc
    · rw [if_neg hc]; exact hlo l0 hl0

theorem dbOk_append (db : Db) (l : LeadRec) (hid : l.id = db.nextId)
    (hok : leadOk l) (h : dbOk db) :
    dbOk { db with leads := db.leads ++ [l], nextId := db.nextId + 1 } := by
  obtain ⟨hnd, hlt, hlo, hfo⟩ := h
  refine ⟨?_, ?_, ?_, hfo⟩
  · show ((db.leads ++ [l]).map (fun x => x.id)).Nodup
    rw [List.map_append, List.nodup_append]
    refine ⟨hnd, by simp, ?_⟩
    intro a ha hb
    rcases List.mem_map.mp ha with ⟨l0, hl0, rfl⟩
    have hlt0 := hlt l0 hl0
    have hb2 : l0.id = l.id := by simpa using hb
    rw [hid] at hb2
    omega
  · intro x hx
    show x.id < db.nextId + 1
    rcases List.mem_append.mp hx with hx | hx
    · have := hlt x hx; omega
    · rw [List.mem_singleton.mp hx, hid]
      omega
  · intro x hx
    rcases List.mem_append.mp hx with hx | hx
    · exact hlo x hx
    · rw [List.mem_singleton.mp hx]
      exact hok

theorem dbOk_createLead (u : String) (src : MessageSource) (st : LeadState)
    (opts : Option GetLeadOptions) {db : Db} (h : dbOk db) :
    dbOk (createLead u src st opts db).2 :=
  dbOk_append db _ rfl
    ⟨(by decide : (0 : Int) ≤ 0), (by decide : (0 : Int) ≤ 3),
     fun _ => (by decide : (0 : Int) ≤ 2)⟩ h

theorem dbOk_upsertFormData (i : Nat) (d : ParsedForm) {db : Db} (h : dbOk db) :
    dbOk (upsertFormData i d db) := by
  obtain ⟨hnd, hlt, hlo, hfo⟩ := h
  unfold upsertFormData
  split
  · next row hg =>
    refine ⟨hnd, hlt, hlo, ?_⟩
    intro f hf
    rcases List.mem_map.mp hf with ⟨f0, hf0, rfl⟩
    by_cases hc : (f0.lead_id == i) = true
    · rw [if_pos hc]
      exact hfo row (List.mem_of_find?_eq_some hg)
    · rw [if_neg hc]
      exact hfo f0 hf0
  · next hg =>
    refine ⟨hnd, hlt, hlo, ?_⟩
    intro f hf
    rcases List.mem_append.mp hf with hf | hf
    · exact hfo f hf
    · have hx := List.mem_singleton.mp hf
      rw [hx]
      rfl

theorem getLeadByUserId_mem {u : String} {db : Db} {lead : LeadRec}
    (h : getLeadByUserId u db = some lead) : lead ∈ db.leads := by
  unfold getLeadByUserId at h
  split at h
  · next l0 hfind =>
    injection h with h
    rw [← h]
    exact List.mem_of_find?_eq_some hfind
  · next hfind =>
    split at h
    · exact List.mem_of_find?_eq_some h
    · exact Option.noConfusion h

theorem dbOk_markAsExisting (u : String) (src : MessageSource) {db : Db}
    (h : dbOk db) : dbOk (markAsExisting u src db).2 := by
  unfold markAsExisting
  split
  · next lead hg =>
    by_cases hst : (lead.state == LeadState.NEW) = true
    · rw [if_pos hst]
      exact dbOk_updateById (fun l => rfl)
        (fun l hl hc => by
          obtain ⟨h0, h1, h2⟩ := h.2.2.1 l hl
          exact ⟨h0, h1, fun hcontra =>
            absurd hcontra (by decide : ¬shouldBotReply LeadState.EXISTING = true)⟩) h
    · rw [if_neg hst]
      exact h
  · next hg => exact dbOk_createLead u src .EXISTING none h

theorem dbOk_getOrCreateLead (u : String) (src : MessageSource)
    (opts : Option GetLeadOptions) {db : Db} (h : dbOk db) :
    dbOk (getOrCreateLead u src opts db).db := by
  unfold getOrCreateLead
  split
  · exact dbOk_createLead u src .NEW opts h
  · next lead hg =>
    by_cases hu : shouldUpdateMetadata lead opts = true
    · rw [if_pos hu]
      exact dbOk_updateById (fun l => rfl)
        (fun l hl hc => by
          obtain ⟨h0, h1, h2⟩ := h.2.2.1 l hl
          exact ⟨h0, h1, h2⟩) h
    · rw [if_neg hu]
      exact h

theorem getOrCreateLead_lead_mem (u : String) (src : MessageSource)
    (opts : Option GetLeadOptions) (db : Db) :
    (getOrCreateLead u src opts db).lead ∈ (getOrCreateLead u src opts db).db.leads := by
  unfold getOrCreateLead
  split
  · show (createLead u src .NEW opts db).1 ∈ (createLead u src .NEW opts db).2.leads
    unfold createLead
    exact List.mem_append_right _ (by simp)
  · next lead hg =>
    have hm : lead ∈ db.leads := getLeadByUserId_mem hg
    by_cases hu : shouldUpdateMetadata lead opts = true
    · rw [if_pos hu]
      exact self_mem_updateById _ hm
    · rw [if_neg hu]
      exact hm
theorem dbOk_addInteraction (i : Nat) (mid text : String) (d : MessageDirection)
    {db : Db} (h : dbOk db) : dbOk (addInteraction i mid text d db) :=
  ⟨h.1, h.2.1, h.2.2.1, h.2.2.2⟩

theorem escalation_valid (st : LeadState) :
    shouldBotReply st = true →
    (attemptTransition st .MANUAL_INTERVENTION).success = true := by
  cases st <;> decide

theorem updateLeadStateE_eq {i : Nat} {newState : LeadState} {db : Db} {cur : LeadRec}
    (hfind : db.leads.find? (fun l => l.id == i) = some cur)
    (hsucc : (attemptTransition cur.state newState).success = true) :
    updateLeadStateE i newState db =
      .ok (some { cur with state := newState },
        { db with leads :=
            updateById i (fun l => { l with state := newState }) db.leads }) := by
  unfold updateLeadStateE
  rw [hfind]
  show (if (attemptTransition cur.state newState).success = true then
      Except.ok (some { cur with state := newState },
        { db with leads :=
            updateById i (fun l => { l with state := newState }) db.leads })
    else Except.error (((attemptTransition cur.state newState).error).getD "")) = _
  rw [if_pos hsucc]

theorem incrementWarningCount_eq {i : Nat} {db : Db} {cur : LeadRec}
    (hfind : db.leads.find? (fun l => l.id == i) = some cur) :
    incrementWarningCount i db =
      .ok (⟨cur.id, cur.user_id, cur.alt_id, cur.push_name, cur.source, cur.state,
            cur.warning_count + 1⟩,
           decide (cur.warning_count + 1 ≥ 3),
           { db with
             leads :=
               updateById i (fun l => { l with warning_count := l.warning_count + 1 })
                 db.leads }) := by
  unfold incrementWarningCount
  rw [hfind]

theorem dbOk_updateLeadStateE {i : Nat} {newState : LeadState} {db : Db}
    {x : Option LeadRec} {db' : Db}
    (hres : updateLeadStateE i newState db = .ok (x, db'))
    (h : dbOk db)
    (hcur : shouldBotReply newState = true →
      ∀ cur ∈ db.leads, cur.id = i → cur.warning_count ≤ 2) :
    dbOk db' := by
  unfold updateLeadStateE at hres
  split at hres
  · next hfind =>
    injection hres with h1
    injection h1 with h2 h3
    subst h3
    exact h
  · next cur hfind =>
    have hres2 : (if (attemptTransition cur.state newState).success = true then
        Except.ok (some { cur with state := newState },
          { db with leads :=
              updateById i (fun l => { l with state := newState }) db.leads })
      else
        Except.error (((attemptTransition cur.state newState).error).getD ""))
        = Except.ok (x, db') := hres
    split at hres2
    · injection hres2 with h1
      injection h1 with h2 h3
      subst h3
      apply dbOk_updateById
      · exact fun l => rfl
      · intro l hl hc
        obtain ⟨h0, h1, h2⟩ := h.2.2.1 l hl
        exact ⟨h0, h1, fun hrep => hcur hrep l hl (beq_iff_eq.mp hc)⟩
      · exact h
    · exact Except.noConfusion hres2

theorem handleEscalation_db (lead : LeadRec) (msg : InboundMessage)
    (reason : String) (db : Db) (q : Queues) :
    (handleEscalation lead msg reason db q).1 =
      match updateLeadStateE lead.id .MANUAL_INTERVENTION db with
      | .ok (_, d) => d
      | .error _ => db := rfl

theorem handleSpecialOption_db (lead : LeadRec) (msg : InboundMessage)
    (type : String) (db : Db) (q : Queues) :
    (handleSpecialOption lead msg type db q).1 =
      match updateLeadStateE lead.id .MANUAL_INTERVENTION db with
      | .ok (_, d) => d
      | .error _ => db := rfl

theorem dbOk_handleEscalation (lead : LeadRec) (msg : InboundMessage)
    (reason : String) {db : Db} (q : Queues) (h : dbOk db) :
    dbOk (handleEscalation lead msg reason db q).1 := by
  rw [handleEscalation_db]
  cases hres : updateLeadStateE lead.id .MANUAL_INTERVENTION db with
  | ok p =>
    obtain ⟨x, d⟩ := p
    exact dbOk_updateLeadStateE hres h
      (fun hfalse =>
        absurd hfalse (by decide : ¬shouldBotReply LeadState.MANUAL_INTERVENTION = true))
  | error e => exact h

theorem dbOk_handleSpecialOption (lead : LeadRec) (msg : InboundMessage)
    (type : String) {db : Db} (q : Queues) (h : dbOk db) :
    dbOk (handleSpecialOption lead msg type db q).1 := by
  rw [handleSpecialOption_db]
  cases hres : updateLeadStateE lead.id .MANUAL_INTERVENTION db with
  | ok p =>
    obtain ⟨x, d⟩ := p
    exact dbOk_updateLeadStateE hres h
      (fun hfalse =>
        absurd hfalse (by decide : ¬shouldBotReply LeadState.MANUAL_INTERVENTION = true))
  | error e => exact h

theorem dbOk_inc_noesc {lead0 : LeadRec} {db : Db}
    (hm : lead0 ∈ db.leads) (hdb : dbOk db)
    (hrep : shouldBotReply lead0.state = true)
    {x : LeadRec} {db1 : Db}
    (hres : incrementWarningCount lead0.id db = .ok (x, false, db1)) :
    dbOk db1 := by
  have hfind := find?_id_of_nodup hdb.1 hm
  rw [incrementWarningCount_eq hfind] at hres
  injection hres with h1
  injection h1 with h2 h3
  injection h3 with h4 h5
  subst h5
  have hlt : lead0.warning_count + 1 < 3 := by
    have hn := of_decide_eq_false h4
    omega
  apply dbOk_updateById
  · exact fun l => rfl
  · intro l hl hc
    have heq : l = lead0 := leads_id_unique hdb hl hm (beq_iff_eq.mp hc)
    obtain ⟨h0, h1, h2⟩ := hdb.2.2.1 l hl
    have hlt2 : l.warning_count + 1 < 3 := by rw [heq]; exact hlt
    refine ⟨?_, ?_, fun _ => ?_⟩
    · show (0 : Int) ≤ l.warning_count + 1
      omega
    · show l.warning_count + 1 ≤ 3
      omega
    · show l.warning_count + 1 ≤ 2
      omega
  · exact hdb

theorem dbOk_inc_esc (leadE : LeadRec) (msg : InboundMessage) (reason : String)
    (q : Queues) {lead0 : LeadRec} {db : Db}
    (hm : lead0 ∈ db.leads) (hdb : dbOk db)
    (hrep : shouldBotReply lead0.state = true)
    (hE : leadE.id = lead0.id)
    {x : LeadRec} {esc : Bool} {db1 : Db}
    (hres : incrementWarningCount lead0.id db = .ok (x, esc, db1)) :
    dbOk (handleEscalation leadE msg reason db1 q).1 := by
  have hfind := find?_id_of_nodup hdb.1 hm
  rw [incrementWarningCount_eq hfind] at hres
  injection hres with h1
  injection h1 with h2 h3
  injection h3 with h4 h5
  subst h5
  have hfind1 : ({ db with
        leads :=
          updateById lead0.id (fun l => { l with warning_count := l.warning_count + 1 })
            db.leads } : Db).leads.find? (fun l => l.id == lead0.id) =
      some { lead0 with warning_count := lead0.warning_count + 1 } :=
    @find?_updateById lead0.id
      (fun l => { l with warning_count := l.warning_count + 1 }) (fun l => rfl)
      db.leads hdb.1 lead0 hm (beq_self_eq_true lead0.id)
  have hvalid : (attemptTransition
      ({ lead0 with warning_count := lead0.warning_count + 1 } : LeadRec).state
      .MANUAL_INTERVENTION).success = true := by
    show (attemptTransition lead0.state .MANUAL_INTERVENTION).success = true
    exact escalation_valid lead0.state hrep
  rw [handleEscalation_db, hE, updateLeadStateE_eq hfind1 hvalid]
  show dbOk { db with
    leads :=
      updateById lead0.id (fun l => { l with state := .MANUAL_INTERVENTION })
        (updateById lead0.id (fun l => { l with warning_count := l.warning_count + 1 })
          db.leads) }
  rw [@updateById_comp lead0.id (fun l => { l with state := .MANUAL_INTERVENTION })
    (fun l => { l with warning_count := l.warning_count + 1 }) (fun l => rfl) db.leads]
  apply dbOk_updateById
  · exact fun l => rfl
  · intro l hl hc
    have heq : l = lead0 := leads_id_unique hdb hl hm (beq_iff_eq.mp hc)
    obtain ⟨h0, h1, h2⟩ := hdb.2.2.1 l hl
    have hle : l.warning_count ≤ 2 := by
      rw [heq]
      exact (hdb.2.2.1 lead0 hm).2.2 hrep
    refine ⟨?_, ?_, fun hfalse =>
      absurd hfalse (by decide : ¬shouldBotReply LeadState.MANUAL_INTERVENTION = true)⟩
    · show (0 : Int) ≤ l.warning_count + 1
      omega
    · show l.warning_count + 1 ≤ 3
      omega
  · exact hdb
theorem handleFormState_eq_continue (lead : LeadRec) (msg : InboundMessage)
    (db : Db) (q : Queues) :
    handleFormState lead msg db q =
      match ((if lead.state == LeadState.FORM_SENT then
          match updateLeadStateE lead.id .FORM_IN_PROGRESS db with
          | .error e => Except.error e
          | .ok (_, d) => Except.ok d
        else Except.ok db) : Except String Db) with
      | .error e => (.error e, q)
      | .ok db1 => formContinue lead msg db1 q := rfl

theorem dbOk_formContinue {lead l1 : LeadRec} {msg : InboundMessage}
    {db1 : Db} {q : Queues}
    (hm1 : l1 ∈ db1.leads) (hid1 : l1.id = lead.id) (hdb1 : dbOk db1)
    (hrep1 : shouldBotReply l1.state = true)
    {res : MessageHandlerResult} {db' : Db}
    (hres : (formContinue lead msg db1 q).1 = .ok (res, db')) :
    dbOk db' := by
  unfold formContinue at hres
  by_cases hv : (validateFormData (parseFormData msg.text)
      ((getLeadFormData lead.id db1).map rowToPartial)).valid = true
  · rw [if_pos hv] at hres
    simp only [] at hres
    cases hc : updateLeadStateE lead.id .FORM_COMPLETED
        (upsertFormData lead.id { completed := some true }
          (upsertFormData lead.id (parseFormData msg.text) db1)) with
    | error e => rw [hc] at hres; simp at hres
    | ok p2 =>
      rw [hc] at hres
      simp at hres
      obtain ⟨-, rfl⟩ := hres
      obtain ⟨x2, d2⟩ := p2
      exact dbOk_updateLeadStateE hc
        (dbOk_upsertFormData _ _ (dbOk_upsertFormData _ _ hdb1))
        (fun hfalse =>
          absurd hfalse (by decide : ¬shouldBotReply LeadState.FORM_COMPLETED = true))
  · rw [if_neg hv] at hres
    cases hw : incrementWarningCount lead.id
        (upsertFormData lead.id (parseFormData msg.text) db1) with
    | error e => rw [hw] at hres; simp at hres
    | ok p2 =>
      rw [hw] at hres
      rcases p2 with ⟨lx, esc, db3⟩
      have hm2 : l1 ∈ (upsertFormData lead.id (parseFormData msg.text) db1).leads := by
        rw [upsertFormData_leads]
        exact hm1
      have hdb2 : dbOk (upsertFormData lead.id (parseFormData msg.text) db1) :=
        dbOk_upsertFormData _ _ hdb1
      by_cases he : esc = true
      · subst he
        simp at hres
        obtain ⟨-, rfl⟩ := hres
        exact dbOk_inc_esc lead msg "max_warnings" q hm2 hdb2 hrep1 hid1.symm
          (by rw [hid1]; exact hw)
      · rw [Bool.not_eq_true] at he
        subst he
        simp at hres
        obtain ⟨-, rfl⟩ := hres
        exact dbOk_inc_noesc hm2 hdb2 hrep1 (by rw [hid1]; exact hw)

theorem dbOk_handleNewState {lead : LeadRec} {db : Db} {q : Queues}
    (hm : lead ∈ db.leads) (hdb : dbOk db)
    (hrep : shouldBotReply lead.state = true)
    {res : MessageHandlerResult} {db' : Db}
    (hres : (handleNewState lead db q).1 = .ok (res, db')) :
    dbOk db' := by
  unfold handleNewState at hres
  cases hu : updateLeadStateE lead.id .CHOOSE_OPTION db with
  | error e => rw [hu] at hres; simp at hres
  | ok p =>
    rw [hu] at hres
    simp at hres
    obtain ⟨-, rfl⟩ := hres
    obtain ⟨x, d⟩ := p
    exact dbOk_updateLeadStateE hu hdb
      (fun hh cur hc hcid => by
        rw [leads_id_unique hdb hc hm hcid]
        exact (hdb.2.2.1 lead hm).2.2 hrep)

theorem dbOk_handleChooseOptionState {lead : LeadRec} {msg : InboundMessage}
    {db : Db} {q : Queues}
    (hm : lead ∈ db.leads) (hdb : dbOk db)
    (hrep : shouldBotReply lead.state = true)
    {res : MessageHandlerResult} {db' : Db}
    (hres : (handleChooseOptionState lead msg db q).1 = .ok (res, db')) :
    dbOk db' := by
  unfold handleChooseOptionState at hres
  by_cases h1 : ((⟨trimL msg.text.data⟩ : String) == "1") = true
  · rw [if_pos h1] at hres
    cases hu : updateLeadStateE lead.id .FORM_SENT db with
    | error e => rw [hu] at hres; simp at hres
    | ok p =>
      rw [hu] at hres
      simp at hres
      obtain ⟨-, rfl⟩ := hres
      obtain ⟨x, d⟩ := p
      exact dbOk_updateLeadStateE hu hdb
        (fun hh cur hc hcid => by
          rw [leads_id_unique hdb hc hm hcid]
          exact (hdb.2.2.1 lead hm).2.2 hrep)
  · rw [if_neg h1] at hres
    by_cases h2 : ((⟨trimL msg.text.data⟩ : String) == "2") = true
    · rw [if_pos h2] at hres
      simp at hres
      obtain ⟨-, rfl⟩ := hres
      exact dbOk_handleSpecialOption lead msg "partnership_interest" q hdb
    · rw [if_neg h2] at hres
      by_cases h3 : ((⟨trimL msg.text.data⟩ : String) == "3") = true
      · rw [if_pos h3] at hres
        simp at hres
        obtain ⟨-, rfl⟩ := hres
        exact dbOk_handleSpecialOption lead msg "other_needs" q hdb
      · rw [if_neg h3] at hres
        cases hw : incrementWarningCount lead.id db with
        | error e => rw [hw] at hres; simp at hres
        | ok p2 =>
          rw [hw] at hres
          rcases p2 with ⟨lx, esc, db1⟩
          by_cases he : esc = true
          · subst he
            simp at hres
            obtain ⟨-, rfl⟩ := hres
            exact dbOk_inc_esc lead msg "max_warnings" q hm hdb hrep rfl hw
          · rw [Bool.not_eq_true] at he
            subst he
            simp at hres
            obtain ⟨-, rfl⟩ := hres
            exact dbOk_inc_noesc hm hdb hrep hw

theorem dbOk_handleCompletedState {lead : LeadRec} {msg : InboundMessage}
    {db : Db} {q : Queues} (hdb : dbOk db)
    {res : MessageHandlerResult} {db' : Db}
    (hres : (handleCompletedState lead msg db q).1 = .ok (res, db')) :
    dbOk db' := by
  unfold handleCompletedState at hres
  simp at hres
  obtain ⟨-, rfl⟩ := hres
  exact dbOk_handleEscalation lead msg "post_form_contact" q hdb

theorem dbOk_handlePartnershipState {lead : LeadRec} {msg : InboundMessage}
    {db : Db} {q : Queues} (hdb : dbOk db)
    {res : MessageHandlerResult} {db' : Db}
    (hres : (handlePartnershipState lead msg db q).1 = .ok (res, db')) :
    dbOk db' := by
  unfold handlePartnershipState at hres
  simp at hres
  obtain ⟨-, rfl⟩ := hres
  exact dbOk_handleEscalation lead msg "partnership_followup" q hdb

theorem dbOk_handleFormState {lead : LeadRec} {msg : InboundMessage}
    {db : Db} {q : Queues}
    (hm : lead ∈ db.leads) (hdb : dbOk db)
    (hrep : shouldBotReply lead.state = true)
    {res : MessageHandlerResult} {db' : Db}
    (hres : (handleFormState lead msg db q).1 = .ok (res, db')) :
    dbOk db' := by
  rw [handleFormState_eq_continue] at hres
  by_cases hs : (lead.state == LeadState.FORM_SENT) = true
  · rw [if_pos hs] at hres
    have hstate : lead.state = .FORM_SENT := by
      revert hs
      cases lead.state <;> decide
    cases hu : updateLeadStateE lead.id .FORM_IN_PROGRESS db with
    | error e => rw [hu] at hres; simp at hres
    | ok p =>
      rw [hu] at hres
      simp only [] at hres
      have hfind := find?_id_of_nodup hdb.1 hm
      have hsucc : (attemptTransition lead.state .FORM_IN_PROGRESS).success = true := by
        rw [hstate]
        decide
      have hpd : p.2 = { db with
          leads :=
            updateById lead.id (fun l => { l with state := LeadState.FORM_IN_PROGRESS })
              db.leads } := by
        rw [updateLeadStateE_eq hfind hsucc] at hu
        injection hu with hu1
        rw [← hu1]
      rw [hpd] at hres
      refine @dbOk_formContinue lead { lead with state := LeadState.FORM_IN_PROGRESS }
        msg _ q ?_ rfl ?_ ?_ res db' hres
      · exact self_mem_updateById _ hm
      · apply dbOk_updateById
        · exact fun l => rfl
        · intro l hl hc
          obtain ⟨h0, h1, h2⟩ := hdb.2.2.1 l hl
          have hle : l.warning_count ≤ 2 := by
            rw [leads_id_unique hdb hl hm (beq_iff_eq.mp hc)]
            exact (hdb.2.2.1 lead hm).2.2 hrep
          exact ⟨h0, h1, fun _ => hle⟩
        · exact hdb
      · show shouldBotReply LeadState.FORM_IN_PROGRESS = true
        decide
  · rw [if_neg hs] at hres
    exact dbOk_formContinue hm rfl hdb hrep hres

theorem dbOk_handleByState {lead : LeadRec} {msg : InboundMessage}
    {db : Db} {q : Queues}
    (hm : lead ∈ db.leads) (hdb : dbOk db)
    (hrep : shouldBotReply lead.state = true)
    {res : MessageHandlerResult} {db' : Db}
    (hres : (handleByState lead msg db q).1 = .ok (res, db')) :
    dbOk db' := by
  unfold handleByState at hres
  cases hst : lead.state with
  | NEW =>
    rw [hst] at hres
    exact dbOk_handleNewState hm hdb hrep hres
  | EXISTING =>
    rw [hst] at hres
    injection hres with h1
    injection h1 with h2 h3
    rw [← h3]
    exact hdb
  | CHOOSE_OPTION =>
    rw [hst] at hres
    exact dbOk_handleChooseOptionState hm hdb hrep hres
  | FORM_SENT =>
    rw [hst] at hres
    exact dbOk_handleFormState hm hdb hrep hres
  | FORM_IN_PROGRESS =>
    rw [hst] at hres
    exact dbOk_handleFormState hm hdb hrep hres
  | FORM_COMPLETED =>
    rw [hst] at hres
    exact dbOk_handleCompletedState hdb hres
  | MANUAL_INTERVENTION =>
    rw [hst] at hres
    injection hres with h1
    injection h1 with h2 h3
    rw [← h3]
    exact hdb
  | PARTNERSHIP =>
    rw [hst] at hres
    exact dbOk_handlePartnershipState hdb hres
theorem dbOk_adminChangeState (i : Nat) (st : LeadState) {db : Db} (h : dbOk db) :
    dbOk (adminChangeState i st db) := by
  unfold adminChangeState
  apply dbOk_updateById
  · exact fun l => rfl
  · intro l hl hc
    exact ⟨(by decide : (0 : Int) ≤ 0), (by decide : (0 : Int) ≤ 3),
      fun _ => (by decide : (0 : Int) ≤ 2)⟩
  · exact h

theorem dbOk_resetWarningCount (i : Nat) {db : Db} (h : dbOk db) :
    dbOk (resetWarningCount i db) := by
  unfold resetWarningCount
  apply dbOk_updateById
  · exact fun l => rfl
  · intro l hl hc
    exact ⟨(by decide : (0 : Int) ≤ 0), (by decide : (0 : Int) ≤ 3),
      fun _ => (by decide : (0 : Int) ≤ 2)⟩
  · exact h

theorem dbOk_processMessage (msg : InboundMessage) {db : Db} (q : Queues)
    (h : dbOk db) :
    dbOk (processMessage msg db q).poolDb ∧
    ∀ res db1, (processMessage msg db q).txn = .ok (res, db1) → dbOk db1 := by
  unfold processMessage processOutgoingBranch processInboundBranch
  by_cases hf : msg.fromMe = true
  · rw [if_pos hf]
    refine ⟨dbOk_markAsExisting _ _ h, ?_⟩
    intro res db1 htxn
    injection htxn with h1
    injection h1 with h2 h3
    rw [← h3]
    exact dbOk_addInteraction _ _ _ _ (dbOk_markAsExisting _ _ h)
  · rw [if_neg hf]
    by_cases hb : (!shouldBotReply (getOrCreateLead msg.userId msg.source
        (optsOfMessage msg) db).lead.state) = true
    · rw [if_pos hb]
      refine ⟨dbOk_getOrCreateLead _ _ _ h, ?_⟩
      intro res db1 htxn
      injection htxn with h1
      injection h1 with h2 h3
      rw [← h3]
      exact dbOk_addInteraction _ _ _ _ (dbOk_getOrCreateLead _ _ _ h)
    · rw [if_neg hb]
      refine ⟨dbOk_getOrCreateLead _ _ _ h, ?_⟩
      intro res db1 htxn
      have hrep : shouldBotReply (getOrCreateLead msg.userId msg.source
          (optsOfMessage msg) db).lead.state = true := by
        simpa using hb
      refine dbOk_handleByState ?_ ?_ hrep htxn
      · exact getOrCreateLead_lead_mem _ _ _ db
      · exact dbOk_addInteraction _ _ _ _ (dbOk_getOrCreateLead _ _ _ h)

theorem dbOk_handleAdmitted (env : Env) (msg : InboundMessage) {s1 : Sys}
    (h : dbOk s1.db) : dbOk (handleAdmitted env msg s1).2.db := by
  unfold handleAdmitted
  by_cases hc : (s1.cooldown.contains msg.userId) = true
  · rw [if_pos hc]
    simp only []
    by_cases hk : env.commitOk = true
    · rw [if_pos hk]
      exact dbOk_addInteraction _ _ _ _ (dbOk_getOrCreateLead _ _ _ h)
    · rw [if_neg hk]
      exact dbOk_getOrCreateLead _ _ _ h
  · rw [if_neg hc]
    by_cases hl : (!env.lockAcquired) = true
    · rw [if_pos hl]
      exact h
    · rw [if_neg hl]
      have hpm := dbOk_processMessage msg s1.q h
      cases hp : processMessage msg s1.db s1.q with
      | mk poolDb txn q1 =>
        rw [hp] at hpm
        cases txn with
        | error e => exact hpm.1
        | ok p =>
          rcases p with ⟨res, db1⟩
          simp only []
          by_cases hco : env.commitOk = true
          · rw [if_pos hco]
            have hdb1 : dbOk db1 := hpm.2 res db1 rfl
            by_cases hr : res.shouldReply = true
            · rw [if_pos hr]
              exact hdb1
            · rw [if_neg hr]
              exact hdb1
          · rw [if_neg hco]
            exact hpm.1

theorem dbOk_handleInboundMessage (env : Env) (msg : InboundMessage) {s : Sys}
    (h : dbOk s.db) : dbOk (handleInboundMessage env msg s).2.db := by
  unfold handleInboundMessage
  by_cases hd : (env.redisUp && s.processed.contains
      (sourceKey msg.source, msg.messageId)) = true
  · rw [if_pos hd]
    exact h
  · rw [if_neg hd]
    by_cases hr : env.redisUp = true
    · rw [if_pos hr]
      exact dbOk_handleAdmitted env msg h
    · rw [if_neg hr]
      exact dbOk_handleAdmitted env msg h

theorem dbOk_reachable {s : Sys} (h : Reachable s) : dbOk s.db := by
  induction h with
  | init =>
    exact ⟨by decide, fun l hl => absurd hl (List.not_mem_nil l),
      fun l hl => absurd hl (List.not_mem_nil l),
      fun f hf => absurd hf (List.not_mem_nil f)⟩
  | handler env msg hs ih => exact dbOk_handleInboundMessage env msg ih
  | adminState i st hs ih => exact dbOk_adminChangeState i st ih
  | adminReset i hs ih => exact dbOk_resetWarningCount i ih
  | cooldownExpire u hs ih => exact ih
  | processedExpire k hs ih => exact ih

/-- C7: in every system state reachable through the core handler and the
admin operations described by the specification, every `leads` row has a
non-negative `warning_count`, and `warning_count` never exceeds the
`MAX_WARNINGS` cap of 3: the handler only increments the counter from a
replyable state (where the inductive invariant keeps it at most 2) and
escalates to `MANUAL_INTERVENTION` when the increment reaches 3, while
admin state changes reset it to 0. -/
theorem warning_count_bounded {s : Sys} (h : Reachable s) :
    ∀ l ∈ s.db.leads, 0 ≤ l.warning_count ∧ l.warning_count ≤ 3 :=
  fun l hl =>
    ⟨((dbOk_reachable h).2.2.1 l hl).1, ((dbOk_reachable h).2.2.1 l hl).2.1⟩

/-- Witness for C7: the bound holds for the lead row created by the
greeting scenario. -/
theorem warning_count_bounded_witness :
    0 ≤ (sysBugA.db.leads.headD leadFIP).warning_count ∧
    (sysBugA.db.leads.headD leadFIP).warning_count ≤ 3 :=
  warning_count_bounded (Reachable.handler envAll msgHalo Reachable.init)
    (sysBugA.db.leads.headD leadFIP) (by decide)

theorem reachable_sysBugD : Reachable sysBugD :=
  Reachable.handler envAll msgForm
    (Reachable.cooldownExpire userMain
      (Reachable.adminState 0 .FORM_SENT
        (Reachable.handler envAll msgHalo Reachable.init)))

/-- C1: contrary to the five-field completion invariant, no
`lead_form_data` row committed by the core ever carries a `biodata`
value: `upsertFormData` names `source_info`, `business_type`, `budget`,
`start_plan` and `completed` in both its `UPDATE` and its `INSERT`
branch but omits `biodata`, so even rows with `completed = true` keep
`biodata` NULL. -/
theorem core_form_rows_never_store_biodata {s : Sys} (h : Reachable s) :
    ∀ f ∈ s.db.forms, f.biodata = none :=
  (dbOk_reachable h).2.2.2

/-- Witness for C1: the bug run commits `bugRow`, a row with
`completed = true`, four fields filled and `biodata` NULL. -/
theorem core_form_rows_never_store_biodata_witness :
    bugRow ∈ sysBugD.db.forms ∧ bugRow.completed = true ∧ bugRow.biodata = none :=
  ⟨by decide, by decide,
   core_form_rows_never_store_biodata reachable_sysBugD bugRow (by decide)⟩
/-- C9: every `InboundMessage` the WAHA parser emits has `fromMe`,
`isGroup` and `isBroadcast` all `false` — the emitted record sets the
three flags to literal `false` — so `processMessage` always takes the
inbound branch on a parsed WhatsApp message; and for a webhook payload
marked `fromMe` the user id of the emitted message is the normalized
recipient. -/
theorem waha_parser_never_from_me (payload : WAHAWebhookPayload)
    (m : InboundMessage) (hp : parseWAHAMessage payload = some m) :
    m.fromMe = false ∧ m.isGroup = false ∧ m.isBroadcast = false ∧
    (∀ db q, processMessage m db q = processInboundBranch m db q) ∧
    (∀ mp r, payload.payload = some mp → wahaIsFromMe mp = true →
      wahaRecipient mp = some r → m.userId = normalizeUserId r .whatsapp) := by
  unfold parseWAHAMessage at hp
  split at hp
  · exact Option.noConfusion hp
  · split at hp
    · exact Option.noConfusion hp
    · next mp hmp =>
      simp only [] at hp
      split at hp
      · exact Option.noConfusion hp
      · split at hp
        · exact Option.noConfusion hp
        · by_cases hfm : wahaIsFromMe mp = true
          · rw [if_pos hfm] at hp
            cases hr0 : wahaRecipient mp with
            | some r0 =>
              rw [hr0] at hp
              simp only [] at hp
              by_cases he : r0.isEmpty = true
              · rw [if_pos he] at hp
                exact Option.noConfusion hp
              · rw [if_neg he] at hp
                injection hp with hm
                have hf : m.fromMe = false := by rw [← hm]
                refine ⟨hf, by rw [← hm], by rw [← hm], ?_, ?_⟩
                · intro db q
                  unfold processMessage
                  rw [if_neg (by rw [hf]; exact (by decide))]
                · intro mpx r hmpx hfmx hrx
                  rw [hmp] at hmpx
                  injection hmpx with hmp2
                  subst hmp2
                  rw [hr0] at hrx
                  injection hrx with hr2
                  rw [← hm, ← hr2]
            | none =>
              rw [hr0] at hp
              exact Option.noConfusion hp
          · rw [if_neg hfm] at hp
            cases hui : extractWAHAUserIds payload with
            | none =>
              rw [hui] at hp
              exact Option.noConfusion hp
            | some uids =>
              rw [hui] at hp
              simp only [] at hp
              cases hu : uids.userId with
              | none =>
                rw [hu] at hp
                exact Option.noConfusion hp
              | some u =>
                rw [hu] at hp
                simp only [] at hp
                by_cases he : u.isEmpty = true
                · rw [if_pos he] at hp
                  exact Option.noConfusion hp
                · rw [if_neg he] at hp
                  injection hp with hm
                  have hf : m.fromMe = false := by rw [← hm]
                  refine ⟨hf, by rw [← hm], by rw [← hm], ?_, ?_⟩
                  · intro db q
                    unfold processMessage
                    rw [if_neg (by rw [hf]; exact (by decide))]
                  · intro mpx r hmpx hfmx hrx
                    rw [hmp] at hmpx
                    injection hmpx with hmp2
                    subst hmp2
                    exact absurd hfmx hfm

/-- Witness for C9 at a concrete `fromMe` webhook. -/
theorem waha_parser_never_from_me_witness :
    parseWAHAMessage wahaFromMePayload = some wahaFromMeParsed ∧
    wahaFromMeParsed.fromMe = false ∧ wahaFromMeParsed.isGroup = false ∧
    wahaFromMeParsed.isBroadcast = false ∧
    (∀ db q, processMessage wahaFromMeParsed db q =
      processInboundBranch wahaFromMeParsed db q) ∧
    (∀ mp r, wahaFromMePayload.payload = some mp → wahaIsFromMe mp = true →
      wahaRecipient mp = some r →
      wahaFromMeParsed.userId = normalizeUserId r .whatsapp) :=
  have hp : parseWAHAMessage wahaFromMePayload = some wahaFromMeParsed := by decide
  ⟨hp, waha_parser_never_from_me wahaFromMePayload wahaFromMeParsed hp⟩
end Chatbot
